import Mathlib

/-!
The request executor of http-request-action, `src/httpClient.js`.

A shallow embedding of the `request` function of `httpClient.js` and of the
values it manipulates, followed by the properties of the request executor.

JavaScript values are embedded as finite trees (`JSVal`).  The built-ins of
the JavaScript engine that the program calls but does not define
(`JSON.parse`, `JSON.stringify`, the `ToString` conversion of non-string
values) are fields of a `Runtime`, over which the model is defined; both
`JSON.stringify` and `ToString` may throw.  An `Engine` is a runtime whose
`JSON.stringify` returns a text on every value.
-/

namespace HttpClient

/-! ## JavaScript values -/

/-- JavaScript values as far as `httpClient.js` inspects them.  A finite
number is the rational it denotes (the two zeros are one value, which no
operation of the program tells apart).  Objects are property lists in the
object's own key order. -/
inductive JSVal where
  | undefined : JSVal
  | null : JSVal
  | bool (b : Bool) : JSVal
  | num (n : ℚ) : JSVal
  | nan : JSVal
  | infinity : JSVal
  | negInfinity : JSVal
  | bigint (n : Int) : JSVal
  | str (s : String) : JSVal
  | arr (items : List JSVal) : JSVal
  | obj (props : List (String × JSVal)) : JSVal

namespace JSVal

/-- The `typeof` operator. -/
def typeof : JSVal → String
  | undefined => "undefined"
  | null => "object"
  | bool _ => "boolean"
  | num _ => "number"
  | nan => "number"
  | infinity => "number"
  | negInfinity => "number"
  | bigint _ => "bigint"
  | str _ => "string"
  | arr _ => "object"
  | obj _ => "object"

/-- JavaScript truthiness (`ToBoolean`). -/
def truthy : JSVal → Bool
  | undefined => false
  | null => false
  | bool b => b
  | num n => n != 0
  | nan => false
  | infinity => true
  | negInfinity => true
  | bigint n => n != 0
  | str s => s != ""
  | arr _ => true
  | obj _ => true

/-- The values on which a property read throws. -/
def nullish : JSVal → Bool
  | undefined => true
  | null => true
  | _ => false

/-- Lookup of a key in a property list. -/
def lookup (name : String) : List (String × JSVal) → JSVal
  | [] => undefined
  | (k, v) :: rest => if k = name then v else lookup name rest

/-- The value read by `v.name` when `v` is not nullish.  The program reads only
the names `headers`, `Content-Type`, `response`, `request`, `status`, `data`,
`name`, `message`, `code` and `isAxiosError`, none of which a primitive or an
array carries. -/
def prop (v : JSVal) (name : String) : JSVal :=
  match v with
  | obj props => lookup name props
  | _ => undefined

/-- The `TypeError` object raised by the engine, with its message. -/
def typeError (msg : String) : JSVal :=
  obj [("name", str "TypeError"), ("message", str msg)]

/-- Property read `v.name` (or `v[name]`): throws a `TypeError` on `undefined`
and `null`. -/
def getProp (v : JSVal) (name : String) : Except JSVal JSVal :=
  match v with
  | undefined =>
    .error (typeError ("Cannot read properties of undefined (reading \x27" ++ name ++ "\x27)"))
  | null =>
    .error (typeError ("Cannot read properties of null (reading \x27" ++ name ++ "\x27)"))
  | w => .ok (prop w name)

end JSVal

open JSVal

/-! ## Regular-expression replacement (`String.prototype.replace` with `/g`) -/

/-- Global replacement over the characters of a string.  `m` gives the length
of the match starting at the head of its argument, if any; each match is
replaced by `f` of the matched text and scanning resumes right after it.  The
counter is the number of characters of the current match still to be consumed;
a position that starts no match is copied. -/
def replaceGlobal (m : List Char → Option Nat) (f : List Char → List Char) :
    Nat → List Char → List Char
  | _, [] => []
  | skip + 1, _ :: cs => replaceGlobal m f skip cs
  | 0, c :: cs =>
    match m (c :: cs) with
    | some (n + 1) => f ((c :: cs).take (n + 1)) ++ replaceGlobal m f n cs
    | _ => c :: replaceGlobal m f 0 cs

/-- The pattern `"[^"]*"` at the head of the input: an opening quote, the
longest run of non-quote characters, a closing quote. -/
def matchQuoted : List Char → Option Nat
  | [] => none
  | c :: cs =>
    if c = '"' then
      match cs.dropWhile (fun d => d != '"') with
      | [] => none
      | _ :: _ => some ((cs.takeWhile (fun d => d != '"')).length + 2)
    else none

/-- The characters matched by `\s` in a JavaScript regular expression. -/
def isSpace (c : Char) : Bool :=
  c = '\t' || c = '\n' || c.toNat = 0x0B || c.toNat = 0x0C || c = '\r' || c = ' ' ||
  c.toNat = 0xA0 || c.toNat = 0x1680 || (0x2000 ≤ c.toNat && c.toNat ≤ 0x200A) ||
  c.toNat = 0x2028 || c.toNat = 0x2029 || c.toNat = 0x202F || c.toNat = 0x205F ||
  c.toNat = 0x3000 || c.toNat = 0xFEFF

/-- The characters matched by `[\n\r]`. -/
def isNewline (c : Char) : Bool :=
  c = '\n' || c = '\r'

/-- The pattern `[\n\r]\s*` at the head of the input. -/
def matchNewline : List Char → Option Nat
  | [] => none
  | c :: cs => if isNewline c then some ((cs.takeWhile isSpace).length + 1) else none

/-- The inner replacement `match.replace(/[\n\r]\s*/g, "\\n")`: the replacement
text is a backslash followed by the letter n. -/
def escapeNewlines (quoted : List Char) : List Char :=
  replaceGlobal matchNewline (fun _ => ['\\', 'n']) 0 quoted

/-- The outer replacement `data.replace(/"[^"]*"/g, (match) => ...)` on the
characters of the body. -/
def escapeChars (body : List Char) : List Char :=
  replaceGlobal matchQuoted escapeNewlines 0 body

/-- The escape step of `request` on a body string. -/
def escapeData (body : String) : String :=
  String.mk (escapeChars body.data)

/-! ## The engine, the reporter and the effects of a run -/

/-- The built-ins of the JavaScript engine that the program calls:
`JSON.parse` (`none` when it throws a `SyntaxError`), `JSON.stringify`, and
the `ToString` conversion of a value that is not a string.  `JSON.stringify`
and `ToString` either return a text or throw a `TypeError`, of which `error`
holds the message: `JSON.stringify` on a cyclic structure or a BigInt,
`ToString` on an object that has no primitive value. -/
structure Runtime where
  jsonParse : String → Option JSVal
  jsonStringify : JSVal → Except String String
  toStr : JSVal → Except String String

/-- A runtime whose `JSON.stringify` returns a text on every value it is
given. -/
structure Engine where
  jsonParse : String → Option JSVal
  jsonStringify : JSVal → String
  toStr : JSVal → Except String String

/-- An engine as a runtime. -/
def Engine.toRuntime (E : Engine) : Runtime :=
  ⟨E.jsonParse, fun v => .ok (E.jsonStringify v), E.toStr⟩

instance : Coe Engine Runtime := ⟨Engine.toRuntime⟩

/-- The call `JSON.stringify(v)`. -/
def stringify (R : Runtime) (v : JSVal) : Except JSVal String :=
  match R.jsonStringify v with
  | .ok text => .ok text
  | .error msg => .error (typeError msg)

/-- The `options` bag of `request`. `retry` is `none` when the field is
absent. -/
structure Options where
  ignoredCodes : List Int
  preventFailureOnNoResponse : Bool
  escapeData : Bool
  retry : Option Nat
  retryWait : Nat

/-- The `options` object as a JavaScript value. -/
def Options.toJS (o : Options) : JSVal :=
  obj [("ignoredCodes", arr (o.ignoredCodes.map (fun c => num c))),
       ("preventFailureOnNoResponse", bool o.preventFailureOnNoResponse),
       ("escapeData", bool o.escapeData),
       ("retry", match o.retry with
                 | none => undefined
                 | some n => num n),
       ("retryWait", num o.retryWait)]

/-- What a run does that is visible outside it: the calls on the `actions`
reporter, the calls of `instance.request` with their descriptor, and the waits
between attempts. -/
inductive Event where
  | debug (msg : String) : Event
  | warning (msg : String) : Event
  | setOutput (key value : String) : Event
  | setFailed (msg : String) : Event
  | dispatch (requestData : JSVal) : Event
  | sleep (ms : Nat) : Event

namespace Event

def isWarning : Event → Bool
  | warning _ => true
  | _ => false

def isSetFailed : Event → Bool
  | setFailed _ => true
  | _ => false

def isSetOutput : Event → Bool
  | setOutput _ _ => true
  | _ => false

def isDispatch : Event → Bool
  | dispatch _ => true
  | _ => false

def isSleep : Event → Bool
  | sleep _ => true
  | _ => false

end Event

/-- A computation of the program: the events it has emitted, and either the
value it returns (`ok`) or the value it throws (`error`).  For an `async`
function, `ok` is the value the promise resolves with and `error` the value it
rejects with. -/
structure Run (α : Type) where
  events : List Event
  result : Except JSVal α

namespace Run

def ret {α : Type} (a : α) : Run α := ⟨[], .ok a⟩

def andThen {α β : Type} (x : Run α) (f : α → Run β) : Run β :=
  match x.result with
  | .ok a => ⟨x.events ++ (f a).events, (f a).result⟩
  | .error e => ⟨x.events, .error e⟩

instance : Monad Run where
  pure := ret
  bind := andThen

/-- A call on the reporter or the client that leaves a trace. -/
def emit (e : Event) : Run Unit := ⟨[e], .ok ()⟩

/-- The statement `throw e`. -/
def raise {α : Type} (e : JSVal) : Run α := ⟨[], .error e⟩

/-- An expression that may throw but emits nothing. -/
def compute {α : Type} (x : Except JSVal α) : Run α := ⟨[], x⟩

/-- The statement `try { body } catch (error) { handler }`. -/
def tryCatch {α : Type} (body : Run α) (handler : JSVal → Run α) : Run α :=
  match body.result with
  | .ok a => ⟨body.events, .ok a⟩
  | .error e => ⟨body.events ++ (handler e).events, (handler e).result⟩

end Run

open Run

/-! ## Form encoding (`url.URLSearchParams`) -/

/-- An upper-case hexadecimal digit. -/
def hexDigit (n : Nat) : Char :=
  if n < 10 then Char.ofNat (48 + n) else Char.ofNat (55 + n)

/-- The escape `%XX` of a byte. -/
def percentByte (b : UInt8) : List Char :=
  ['%', hexDigit (b.toNat / 16), hexDigit (b.toNat % 16)]

/-- The characters that the `application/x-www-form-urlencoded` serializer
leaves as they are: ASCII letters, digits and `*-._`. -/
def formSafe (c : Char) : Bool :=
  c.isAlphanum || c = '*' || c = '-' || c = '.' || c = '_'

/-- The `application/x-www-form-urlencoded` encoding of one character: a safe
character stays, a space becomes `+`, every other character becomes the `%XX`
escapes of its UTF-8 bytes. -/
def formEncodeChar (c : Char) : List Char :=
  if formSafe c then [c]
  else if c = ' ' then ['+']
  else (String.utf8EncodeChar c).flatMap percentByte

def formEncode (s : String) : String :=
  String.mk (s.data.flatMap formEncodeChar)

/-- The result of `URLSearchParams.prototype.toString`: `name=value` pairs
joined by `&`. -/
def formSerialize (pairs : List (String × String)) : String :=
  "&".intercalate (pairs.map (fun p => formEncode p.1 ++ "=" ++ formEncode p.2))

/-- The conversion of a property value or tuple member to a string; it throws
the `TypeError` of `ToString`. -/
def toUSVString (R : Runtime) : JSVal → Except JSVal String
  | str s => .ok s
  | v =>
    match R.toStr v with
    | .ok text => .ok text
    | .error msg => .error (typeError msg)

/-- One member of a sequence passed to `new URLSearchParams`: a two-element
array is a pair, anything else JSON can produce raises a `TypeError`. -/
def tuplePair (R : Runtime) : JSVal → Except JSVal (String × String)
  | arr [a, b] =>
    match toUSVString R a with
    | .error e => .error e
    | .ok x =>
      match toUSVString R b with
      | .error e => .error e
      | .ok y => .ok (x, y)
  | _ => .error (typeError "Each query pair must be an iterable [name, value] tuple")

/-- The pairs of a sequence, in order; the first member that is not a pair
raises. -/
def tuplePairs (R : Runtime) : List JSVal → Except JSVal (List (String × String))
  | [] => .ok []
  | x :: rest =>
    match tuplePair R x with
    | .error e => .error e
    | .ok p =>
      match tuplePairs R rest with
      | .error e => .error e
      | .ok ps => .ok (p :: ps)

/-- The entries of a record in key order, each value converted to a string;
the first value that does not convert raises. -/
def recordPairs (R : Runtime) : List (String × JSVal) → Except JSVal (List (String × String))
  | [] => .ok []
  | (k, v) :: rest =>
    match toUSVString R v with
    | .error e => .error e
    | .ok text =>
      match recordPairs R rest with
      | .error e => .error e
      | .ok ps => .ok ((k, text) :: ps)

/-- The list of pairs held by `new URLSearchParams(init)` for an `init` whose
`typeof` is `object`: the entries of a record in key order, or the pairs of a
sequence.  The program passes no other kind of value. -/
def urlSearchParams (R : Runtime) : JSVal → Except JSVal (List (String × String))
  | obj props => recordPairs R props
  | arr items => tuplePairs R items
  | _ => .ok []

/-- The number of UTF-16 code units of a string. -/
def utf16Length (s : String) : Nat :=
  (s.data.map (fun c => if c.toNat < 0x10000 then 1 else 2)).sum

/-- The value of `Object.keys(v).length`. -/
def objectKeysLength : JSVal → Except JSVal Nat
  | undefined => .error (typeError "Cannot convert undefined or null to object")
  | null => .error (typeError "Cannot convert undefined or null to object")
  | obj props => .ok props.length
  | arr items => .ok items.length
  | str s => .ok (utf16Length s)
  | _ => .ok 0

/-! ## `httpClient.js` -/

def METHOD_GET : String := "GET"

def METHOD_POST : String := "POST"

def HEADER_CONTENT_TYPE : String := "Content-Type"

def CONTENT_TYPE_URLENCODED : String := "application/x-www-form-urlencoded"

/-- The body variable `data` as a JavaScript value: a string or `undefined`. -/
def dataJS : Option String → JSVal
  | none => undefined
  | some s => str s

/-- Modelled from the spec: `convertToJSON` of `helper.js`, which is not among
the sources.  The spec says that the body is parsed as JSON and that a failure
leaves the body unchanged: the parsed value is returned, and on a failure (an
absent body included) the body itself. -/
def convertToJSON (R : Runtime) (data : Option String) : JSVal :=
  match data with
  | none => undefined
  | some s =>
    match R.jsonParse s with
    | some v => v
    | none => str s

/-- Lines 35-39: the escape step.  `data.replace` on an absent body throws. -/
def escapeStep (options : Options) (data : Option String) : Except JSVal (Option String) :=
  if options.escapeData then
    match data with
    | some s => .ok (some (escapeData s))
    | none => .error (typeError "Cannot read properties of undefined (reading \x27replace\x27)")
  else .ok data

/-- Lines 41-43: a `GET` request carries no body. -/
def getStep (method : String) (data : Option String) : Option String :=
  if method = METHOD_GET then none else data

/-- Strict equality of a value with a string constant. -/
def strictEqStr (v : JSVal) (s : String) : Bool :=
  match v with
  | str t => t = s
  | _ => false

/-- Lines 45-50: the form-encoding step. -/
def formStep (R : Runtime) (instanceConfig : JSVal) (data : Option String) :
    Except JSVal (Option String) := do
  let headers ← getProp instanceConfig "headers"
  let contentType ← getProp headers HEADER_CONTENT_TYPE
  if strictEqStr contentType CONTENT_TYPE_URLENCODED then
    let dataJson := convertToJSON R data
    if dataJson.typeof = "object" then
      let n ← objectKeysLength dataJson
      if n ≠ 0 then
        let params ← urlSearchParams R dataJson
        pure (some (formSerialize params))
      else pure data
    else pure data
  else pure data

/-- Lines 52-57: the request descriptor. -/
def requestData (method : String) (data : Option String) : JSVal :=
  obj [("method", str method), ("data", dataJS data),
       ("maxContentLength", infinity), ("maxBodyLength", infinity)]

/-- The test `options.ignoredCodes.includes(status)`. -/
def includesStatus (codes : List Int) (status : JSVal) : Bool :=
  match status with
  | num n => decide (n ∈ codes.map (fun c => (c : ℚ)))
  | _ => false

/-- Lines 69-83: the `catch` block of `execRequest`. -/
def execRequestCatch (R : Runtime) (options : Options) (error : JSVal) : Run JSVal := do
  let response ← compute (getProp error "response")
  let ignored ←
    (if response.truthy then do
      let status ← compute (getProp response "status")
      pure (includesStatus options.ignoredCodes status)
    else pure false)
  if ignored then do
    let status ← compute (getProp response "status")
    let body ← compute (getProp response "data")
    let text ← compute (stringify R (obj [("code", status), ("message", body)]))
    emit (.warning ("ignored status code: " ++ text))
    pure response
  else do
    let suppressed ←
      (if !response.truthy then do
        let request ← compute (getProp error "request")
        pure (request.truthy && options.preventFailureOnNoResponse)
      else pure false)
    if suppressed then do
      let text ← compute (stringify R error)
      emit (.warning ("no response received: " ++ text))
      pure null
    else raise error

/-- Lines 66-84: `execRequest`.  The call `instance.request(requestData)` is
recorded with its descriptor; `attempt` is its outcome: the response it
resolves with or the error it rejects with. -/
def execRequest (R : Runtime) (options : Options) (descriptor : JSVal)
    (attempt : Except JSVal JSVal) : Run JSVal :=
  tryCatch (emit (.dispatch descriptor) >>= fun _ => compute attempt) (execRequestCatch R options)

/-- Modelled from the spec: `retry` of `helper.js`, which is not among the
sources.  It runs the callback; on a raised error, if the remaining budget is
positive it waits `sleep`, decrements the budget and runs the callback again;
once the budget is exhausted the last error propagates.  The `actions`
reporter that `request` hands over plays no part in the behaviour the spec
describes.  The callback is given the number of the attempt. -/
def retry (callback : Nat → Run JSVal) (sleep : Nat) : Nat → Nat → Run JSVal
  | 0, attempt => callback attempt
  | budget + 1, attempt =>
    tryCatch (callback attempt)
      (fun _ => emit (.sleep sleep) >>= fun _ => retry callback sleep budget (attempt + 1))

/-- The expression `options.retry || 0`. -/
def retryBudget (options : Options) : Nat :=
  match options.retry with
  | none => 0
  | some n => n

/-- Lines 99-102: the `requestError` output of an axios error. -/
def reportAxiosError (R : Runtime) (error : JSVal) : Run Unit := do
  let marked ←
    (if error.typeof = "object" then do
      let marker ← compute (getProp error "isAxiosError")
      pure (match marker with
            | JSVal.bool true => true
            | _ => false)
    else pure false)
  if marked then do
    let name ← compute (getProp error "name")
    let message ← compute (getProp error "message")
    let code ← compute (getProp error "code")
    let response ← compute (getProp error "response")
    let status ←
      (if response.truthy then do
        let st ← compute (getProp response "status")
        if st.truthy then compute (getProp response "status") else pure null
      else pure null)
    let text ← compute (stringify R
      (obj [("name", name), ("message", message), ("code", code), ("status", status)]))
    emit (.setOutput "requestError" text)
  else pure ()

/-- Lines 104-110: the failure message. -/
def reportFailure (R : Runtime) (error : JSVal) (data : Option String) : Run Unit := do
  let response ← compute (getProp error "response")
  if response.truthy then do
    let status ← compute (getProp response "status")
    let body ← compute (getProp response "data")
    let text ← compute (stringify R (obj [("code", status), ("message", body)]))
    emit (.setFailed text)
  else do
    let request ← compute (getProp error "request")
    if request.truthy then do
      let message ← compute (getProp error "message")
      let text ← compute (stringify R
        (obj [("error", str "no response received 2"), ("message", message),
              ("errorFull", error)]))
      emit (.setFailed text)
    else do
      let message ← compute (getProp error "message")
      let text ← compute (stringify R (obj [("message", message), ("data", dataJS data)]))
      emit (.setFailed text)

/-- Lines 98-111: the outer `catch` block, entered with the caught error and
the value the variable `data` holds at that point.  The function falls off its
end, so the promise resolves with `undefined`; an error thrown inside the
block makes the promise reject. -/
def catchHandler (R : Runtime) (error : JSVal) (data : Option String) : Run JSVal := do
  reportAxiosError R error
  reportFailure R error data
  pure undefined

/-- Lines 34-97: the `try` block.  The second component of the result is the
value of `data` when the block ends or raises. -/
def tryBlock (R : Runtime) (client : Nat → Except JSVal JSVal) (method : String)
    (instanceConfig : JSVal) (data : Option String) (options : Options) :
    Run JSVal × Option String :=
  match escapeStep options data with
  | .error e => (raise e, data)
  | .ok data1 =>
    let data2 := getStep method data1
    match formStep R instanceConfig data2 with
    | .error e => (raise e, data2)
    | .ok data3 =>
      let descriptor := requestData method data3
      (do
        let configText ← compute (stringify R instanceConfig)
        emit (.debug ("Instance Configuration: " ++ configText))
        let descriptorText ← compute (stringify R descriptor)
        emit (.debug ("Request Data: " ++ descriptorText))
        let response ← retry (fun i => execRequest R options descriptor (client i))
          options.retryWait (retryBudget options) 0
        if !response.truthy then pure null else pure response,
       data3)

/-- Lines 31-112: `request`.  `client i` is the outcome of the call number `i`
of `instance.request`.  The debug line of line 32 stands before the `try`. -/
def request (R : Runtime) (client : Nat → Except JSVal JSVal) (method : String)
    (instanceConfig : JSVal) (data : Option String) (options : Options) : Run JSVal :=
  compute (stringify R options.toJS) >>= fun optionsText =>
  emit (.debug ("options: " ++ optionsText)) >>= fun _ =>
  let body := tryBlock R client method instanceConfig data options
  tryCatch body.1 (fun error => catchHandler R error body.2)

/-! ## The classification of a dispatch error -/

/-- The condition of line 70 on an error that is not nullish: it carries a
response whose status is one of `options.ignoredCodes`. -/
def ignoredStatus (options : Options) (error : JSVal) : Bool :=
  (prop error "response").truthy &&
    includesStatus options.ignoredCodes (prop (prop error "response") "status")

/-- The condition of line 76 on an error that is not nullish: no response, a
request object, and `options.preventFailureOnNoResponse`. -/
def suppressedNoResponse (options : Options) (error : JSVal) : Bool :=
  !(prop error "response").truthy && (prop error "request").truthy &&
    options.preventFailureOnNoResponse

/-- The error that `execRequest` raises when `instance.request` raises `error`
and neither condition holds: `error` itself, or the `TypeError` of reading a
property of `undefined` or `null`. -/
def raisedBy (error : JSVal) : JSVal :=
  match getProp error "response" with
  | .ok _ => error
  | .error t => t

/-- The message of the warning for an ignored status. -/
def ignoredWarning (E : Engine) (error : JSVal) : String :=
  "ignored status code: " ++ E.jsonStringify
    (obj [("code", prop (prop error "response") "status"),
          ("message", prop (prop error "response") "data")])

/-- The three debug lines and the attempts of a run whose `k + 1` attempts all
carry the descriptor of the pre-processed body `body`, with a wait between
consecutive attempts. -/
def attemptsTrace (E : Engine) (method : String) (instanceConfig : JSVal)
    (options : Options) (body : Option String) (k : Nat) : List Event :=
  [Event.debug ("options: " ++ E.jsonStringify options.toJS),
   Event.debug ("Instance Configuration: " ++ E.jsonStringify instanceConfig),
   Event.debug ("Request Data: " ++ E.jsonStringify (requestData method body))] ++
  List.intersperse (Event.sleep options.retryWait)
    (List.replicate (k + 1) (Event.dispatch (requestData method body)))

/-- The call of `retry` made by `request` for the pre-processed body `body`
(lines 87-91). -/
def retryRun (R : Runtime) (client : Nat → Except JSVal JSVal) (method : String)
    (options : Options) (body : Option String) : Run JSVal :=
  retry (fun i => execRequest R options (requestData method body) (client i))
    options.retryWait (retryBudget options) 0

/-! ## The records of the terminal handler -/

/-- The test of line 99: `typeof error === 'object'` and
`error.isAxiosError === true`. -/
def isAxiosError (error : JSVal) : Bool :=
  decide (error.typeof = "object") &&
    (match prop error "isAxiosError" with
     | JSVal.bool true => true
     | _ => false)

/-- The value of `response && response.status ? response.status : null`. -/
def statusOrNull (error : JSVal) : JSVal :=
  if (prop error "response").truthy && (prop (prop error "response") "status").truthy then
    prop (prop error "response") "status"
  else null

/-- The record serialised into the `requestError` output. -/
def requestErrorRecord (error : JSVal) : JSVal :=
  obj [("name", prop error "name"), ("message", prop error "message"),
       ("code", prop error "code"), ("status", statusOrNull error)]

/-- The record serialised into the failure message. -/
def failureRecord (error : JSVal) (data : Option String) : JSVal :=
  if (prop error "response").truthy then
    obj [("code", prop (prop error "response") "status"),
         ("message", prop (prop error "response") "data")]
  else if (prop error "request").truthy then
    obj [("error", str "no response received 2"), ("message", prop error "message"),
         ("errorFull", error)]
  else
    obj [("message", prop error "message"), ("data", dataJS data)]

/-- The events of the terminal handler on an error that is not nullish. -/
def terminalTrace (E : Engine) (error : JSVal) (data : Option String) : List Event :=
  (if isAxiosError error then
    [Event.setOutput "requestError" (E.jsonStringify (requestErrorRecord error))]
   else []) ++
  [Event.setFailed (E.jsonStringify (failureRecord error data))]

/-! ## A sample runtime

An instance of `Runtime` on which the program can be run on concrete inputs.
Numbers are read and written as IEEE 754 doubles.  A string escape that
denotes a lone surrogate has no counterpart among the characters here and is
rejected. -/

namespace Sample

/-- JSON whitespace. -/
def isJsonSpace (c : Char) : Bool :=
  c = ' ' || c = '\t' || c = '\n' || c = '\r'

def skipSpace (cs : List Char) : List Char :=
  cs.dropWhile isJsonSpace

/-- The value of a hexadecimal digit. -/
def hexValue (c : Char) : Option Nat :=
  if '0' ≤ c ∧ c ≤ '9' then some (c.toNat - 48)
  else if 'a' ≤ c ∧ c ≤ 'f' then some (c.toNat - 87)
  else if 'A' ≤ c ∧ c ≤ 'F' then some (c.toNat - 55)
  else none

/-- The code unit of a `\uXXXX` escape. -/
def unicodeEscape (a b c d : Char) : Option Nat :=
  match hexValue a, hexValue b, hexValue c, hexValue d with
  | some w, some x, some y, some z => some (((w * 16 + x) * 16 + y) * 16 + z)
  | _, _, _, _ => none

/-- The rest of a JSON string after its opening quote; `acc` holds the
characters read so far.  Two escapes that form a surrogate pair give one
character. -/
def parseString : List Char → List Char → Option (String × List Char)
  | [], _ => none
  | '"' :: rest, acc => some (String.mk acc, rest)
  | '\\' :: 'u' :: a :: b :: c :: d :: '\\' :: 'u' :: e :: f :: g :: h :: rest, acc =>
    match unicodeEscape a b c d, unicodeEscape e f g h with
    | some hi, some lo =>
      if 0xD800 ≤ hi ∧ hi ≤ 0xDBFF then
        if 0xDC00 ≤ lo ∧ lo ≤ 0xDFFF then
          parseString rest (acc ++ [Char.ofNat (0x10000 + (hi - 0xD800) * 0x400 + (lo - 0xDC00))])
        else none
      else if 0xDC00 ≤ hi ∧ hi ≤ 0xDFFF then none
      else parseString ('\\' :: 'u' :: e :: f :: g :: h :: rest) (acc ++ [Char.ofNat hi])
    | _, _ => none
  | '\\' :: 'u' :: a :: b :: c :: d :: rest, acc =>
    match unicodeEscape a b c d with
    | some n => if 0xD800 ≤ n ∧ n ≤ 0xDFFF then none else parseString rest (acc ++ [Char.ofNat n])
    | none => none
  | '\\' :: e :: rest, acc =>
    if e = '"' then parseString rest (acc ++ ['"'])
    else if e = '\\' then parseString rest (acc ++ ['\\'])
    else if e = '/' then parseString rest (acc ++ ['/'])
    else if e = 'b' then parseString rest (acc ++ [Char.ofNat 8])
    else if e = 'f' then parseString rest (acc ++ [Char.ofNat 12])
    else if e = 'n' then parseString rest (acc ++ ['\n'])
    else if e = 'r' then parseString rest (acc ++ ['\r'])
    else if e = 't' then parseString rest (acc ++ ['\t'])
    else none
  | c :: rest, acc =>
    if c.toNat < 0x20 ∨ c = '\\' then none else parseString rest (acc ++ [c])

/-! ### Doubles

A finite double that is not negative is a pair `(m, p)` standing for
`m * 2 ^ p`. -/

/-- The number of binary digits of `n`; the first argument bounds the
recursion. -/
def bitLength : Nat → Nat → Nat
  | 0, _ => 0
  | fuel + 1, n => if n = 0 then 0 else bitLength fuel (n / 2) + 1

/-- The number of decimal digits of `n`; the first argument bounds the
recursion. -/
def decimalLength : Nat → Nat → Nat
  | 0, _ => 0
  | fuel + 1, n => if n = 0 then 0 else decimalLength fuel (n / 10) + 1

/-- The fraction `n / d` divided by `b ^ e`, as a fraction. -/
def scale (b n d : Nat) (e : Int) : Nat × Nat :=
  if 0 ≤ e then (n, d * b ^ e.toNat) else (n * b ^ (-e).toNat, d)

/-- The integer nearest to `n / d`, ties to even. -/
def roundHalfEven (n d : Nat) : Nat :=
  if 2 * (n % d) < d then n / d
  else if d < 2 * (n % d) then n / d + 1
  else if n / d % 2 = 0 then n / d
  else n / d + 1

/-- The integer part of the binary logarithm of `n / d`, for positive `n`
and `d`. -/
def floorLog2 (n d : Nat) : Int :=
  let e : Int := (bitLength n n : Int) - (bitLength d d : Int)
  if (scale 2 n d e).2 ≤ (scale 2 n d e).1 then e else e - 1

/-- The double nearest to `n / d` (round to nearest, ties to even), `none`
when it is infinite. -/
def toDouble (n d : Nat) : Option (Nat × Int) :=
  if n = 0 then some (0, 0)
  else
    let p : Int := max (floorLog2 n d) (-1022) - 52
    let m := roundHalfEven (scale 2 n d p).1 (scale 2 n d p).2
    if 971 < p ∨ (p = 971 ∧ 2 ^ 53 ≤ m) then none else some (m, p)

/-- Equality of the values of two doubles. -/
def sameDouble (x y : Nat × Int) : Bool :=
  x.1 * 2 ^ (x.2 - min x.2 y.2).toNat = y.1 * 2 ^ (y.2 - min x.2 y.2).toNat

/-- The double `(m, p)` as a fraction. -/
def doubleFraction (x : Nat × Int) : Nat × Nat :=
  scale 2 x.1 1 (-x.2)

/-- The number value with the given sign and magnitude. -/
def numberValue (negative : Bool) (x : Nat × Int) : JSVal :=
  let f := doubleFraction x
  num (mkRat (if negative then -(f.1 : Int) else (f.1 : Int)) f.2)

/-- The least `j` from `j` on with `d ≤ n * 10 ^ j`; the first argument
bounds the search. -/
def leadingShift : Nat → Nat → Nat → Nat → Nat
  | 0, _, _, j => j
  | fuel + 1, n, d, j => if d ≤ n then j else leadingShift fuel (n * 10) d (j + 1)

/-- The `n` with `10 ^ (n - 1) ≤ x < 10 ^ n` for a positive fraction. -/
def decimalExponent (n d : Nat) : Int :=
  if d ≤ n then (decimalLength (n / d) (n / d) : Int) else 1 - (leadingShift 400 n d 0 : Int)

/-- Whether the decimal `s * 10 ^ (n - k)` reads back as the double `x`. -/
def readsBack (x : Nat × Int) (s : Nat) (n : Int) (k : Nat) : Bool :=
  match toDouble (scale 10 s 1 ((k : Int) - n)).1 (scale 10 s 1 ((k : Int) - n)).2 with
  | some y => sameDouble x y
  | none => false

/-- The two integers around `x * 10 ^ (k - n)`, the nearer one first. -/
def candidates (x : Nat × Int) (n : Int) (k : Nat) : List Nat :=
  let f := doubleFraction x
  let a := (scale 10 f.1 f.2 (n - (k : Int))).1
  let b := (scale 10 f.1 f.2 (n - (k : Int))).2
  if roundHalfEven a b = a / b then [a / b, a / b + 1] else [a / b + 1, a / b]

/-- The shortest digits `s` (with `k` digits) and the exponent `n` such that
`s * 10 ^ (n - k)` reads back as `x`, trying `k`, `k + 1`, ...; the first
argument bounds the search. -/
def shortest : Nat → Nat × Int → Int → Nat → Nat × Int × Nat
  | 0, x, n, k => (x.1, n, k)
  | fuel + 1, x, n, k =>
    match (candidates x n k).filter (fun s => readsBack x s n k) with
    | s :: _ => if s = 10 ^ k then (10 ^ (k - 1), n + 1, k) else (s, n, k)
    | [] => shortest fuel x n (k + 1)

/-- The text of `Number::toString` for the digits `s` (`k` of them) and the
exponent `n`. -/
def formatDigits (s : Nat) (n : Int) (k : Nat) : String :=
  let ds := (toString s).data
  if (k : Int) ≤ n ∧ n ≤ 21 then String.mk (ds ++ List.replicate (n - k).toNat '0')
  else if 0 < n ∧ n ≤ 21 then String.mk (ds.take n.toNat ++ '.' :: ds.drop n.toNat)
  else if -6 < n ∧ n ≤ 0 then String.mk ('0' :: '.' :: List.replicate (-n).toNat '0' ++ ds)
  else
    let e := n - 1
    let tail := (if 0 ≤ e then "e+" else "e-") ++ toString e.natAbs
    if k = 1 then String.mk ds ++ tail
    else String.mk (ds.take 1 ++ '.' :: ds.drop 1) ++ tail

/-- The text of a finite number (`Number::toString`): the shortest decimal
that reads back as the double. -/
def numberText (q : ℚ) : String :=
  if q.num = 0 then "0"
  else
    let sign := if q.num < 0 then "-" else ""
    if q.den = 1 ∧ q.num.natAbs < 2 ^ 53 then sign ++ toString q.num.natAbs
    else
      match toDouble q.num.natAbs q.den with
      | none => sign ++ "Infinity"
      | some x =>
        if x.1 = 0 then "0"
        else
          let f := doubleFraction x
          let r := shortest 17 x (decimalExponent f.1 f.2) 1
          sign ++ formatDigits r.1 r.2.1 r.2.2

/-- The value of a run of decimal digits. -/
def digitsValue (ds : List Char) : Nat :=
  ds.foldl (fun n d => 10 * n + (d.toNat - 48)) 0

/-- The digits of an integer part: a run of digits without a superfluous
leading zero. -/
def parseInteger (cs : List Char) : Option (List Char × List Char) :=
  let ds := cs.takeWhile Char.isDigit
  if ds = [] then none
  else if ds.head? = some '0' ∧ ds.length ≠ 1 then none
  else some (ds, cs.dropWhile Char.isDigit)

/-- The digits of an optional fraction. -/
def parseFraction : List Char → Option (List Char × List Char)
  | '.' :: cs =>
    if cs.takeWhile Char.isDigit = [] then none
    else some (cs.takeWhile Char.isDigit, cs.dropWhile Char.isDigit)
  | cs => some ([], cs)

/-- The digits of an exponent after its sign. -/
def parseExponentDigits (negative : Bool) (cs : List Char) : Option (Int × List Char) :=
  if cs.takeWhile Char.isDigit = [] then none
  else
    let e : Int := digitsValue (cs.takeWhile Char.isDigit)
    some (if negative then -e else e, cs.dropWhile Char.isDigit)

/-- The value of an optional exponent. -/
def parseExponent : List Char → Option (Int × List Char)
  | 'e' :: '+' :: cs => parseExponentDigits false cs
  | 'e' :: '-' :: cs => parseExponentDigits true cs
  | 'e' :: cs => parseExponentDigits false cs
  | 'E' :: '+' :: cs => parseExponentDigits false cs
  | 'E' :: '-' :: cs => parseExponentDigits true cs
  | 'E' :: cs => parseExponentDigits false cs
  | cs => some (0, cs)

/-- The number of the given sign whose digits are `mantissa * 10 ^ exponent`,
rounded to a double. -/
def decimalValue (negative : Bool) (mantissa : Nat) (exponent : Int) : JSVal :=
  if exponent = 0 ∧ mantissa < 2 ^ 53 then
    num (if negative then -(mantissa : Int) else (mantissa : Int) : Int)
  else
    match toDouble (scale 10 mantissa 1 (-exponent)).1 (scale 10 mantissa 1 (-exponent)).2 with
    | none => if negative then negInfinity else infinity
    | some x => numberValue negative x

/-- An unsigned JSON number. -/
def parseUnsigned (negative : Bool) (cs : List Char) : Option (JSVal × List Char) :=
  match parseInteger cs with
  | none => none
  | some (whole, afterWhole) =>
    match parseFraction afterWhole with
    | none => none
    | some (frac, afterFrac) =>
      match parseExponent afterFrac with
      | none => none
      | some (e, rest) =>
        some (decimalValue negative (digitsValue (whole ++ frac)) (e - (frac.length : Int)), rest)

def parseNumber : List Char → Option (JSVal × List Char)
  | '-' :: cs => parseUnsigned true cs
  | cs => parseUnsigned false cs

/-- The array index that a key denotes, if any: a decimal numeral without a
superfluous leading zero, below `2 ^ 32 - 1`. -/
def arrayIndex (k : String) : Option Nat :=
  if k.data = [] ∨ ¬ k.data.all Char.isDigit then none
  else if k.data.head? = some '0' ∧ k.data.length ≠ 1 then none
  else if digitsValue k.data < 2 ^ 32 - 1 then some (digitsValue k.data)
  else none

/-- The place of a new index key: before the first key that is no index or a
greater index. -/
def insertIndex (i : Nat) (k : String) (v : JSVal) :
    List (String × JSVal) → List (String × JSVal)
  | [] => [(k, v)]
  | (k1, v1) :: rest =>
    match arrayIndex k1 with
    | some j => if i < j then (k, v) :: (k1, v1) :: rest else (k1, v1) :: insertIndex i k v rest
    | none => (k, v) :: (k1, v1) :: rest

/-- Definition of a property in the own key order of objects: a key that is
present keeps its place and takes the new value; a new index key goes among
the index keys in ascending order, which come first; any other new key goes
last. -/
def setProp (k : String) (v : JSVal) (props : List (String × JSVal)) :
    List (String × JSVal) :=
  if props.any (fun p => p.1 = k) then
    props.map (fun p => if p.1 = k then (k, v) else p)
  else
    match arrayIndex k with
    | some i => insertIndex i k v props
    | none => props ++ [(k, v)]

mutual

/-- A JSON value at the head of the input, with the input that follows it. -/
def parseValue : Nat → List Char → Option (JSVal × List Char)
  | 0, _ => none
  | fuel + 1, cs =>
    match skipSpace cs with
    | 'n' :: 'u' :: 'l' :: 'l' :: rest => some (null, rest)
    | 't' :: 'r' :: 'u' :: 'e' :: rest => some (JSVal.bool true, rest)
    | 'f' :: 'a' :: 'l' :: 's' :: 'e' :: rest => some (JSVal.bool false, rest)
    | '"' :: rest => (parseString rest []).map (fun r => (str r.1, r.2))
    | '[' :: rest =>
      match skipSpace rest with
      | ']' :: after => some (arr [], after)
      | inner => (parseElements fuel inner).map (fun r => (arr r.1, r.2))
    | '\x7b' :: rest =>
      match skipSpace rest with
      | '\x7d' :: after => some (obj [], after)
      | inner => (parseMembers fuel inner []).map (fun r => (obj r.1, r.2))
    | other => parseNumber other

/-- The elements of a non-empty array, up to and including the closing
bracket. -/
def parseElements : Nat → List Char → Option (List JSVal × List Char)
  | 0, _ => none
  | fuel + 1, cs =>
    match parseValue fuel cs with
    | none => none
    | some (v, rest) =>
      match skipSpace rest with
      | ',' :: more => (parseElements fuel more).map (fun r => (v :: r.1, r.2))
      | ']' :: after => some ([v], after)
      | _ => none

/-- The members of a non-empty object, up to and including the closing
brace; `acc` holds the properties defined so far. -/
def parseMembers : Nat → List Char → List (String × JSVal) →
    Option (List (String × JSVal) × List Char)
  | 0, _, _ => none
  | fuel + 1, cs, acc =>
    match skipSpace cs with
    | '"' :: rest =>
      match parseString rest [] with
      | none => none
      | some (k, afterKey) =>
        match skipSpace afterKey with
        | ':' :: afterColon =>
          match parseValue fuel afterColon with
          | none => none
          | some (v, afterValue) =>
            match skipSpace afterValue with
            | ',' :: more => parseMembers fuel more (setProp k v acc)
            | '\x7d' :: after => some (setProp k v acc, after)
            | _ => none
        | _ => none
    | _ => none

end

/-- The sample `JSON.parse`: one value surrounded by whitespace. -/
def jsonParse (s : String) : Option JSVal :=
  match parseValue (s.length + 1) s.data with
  | none => none
  | some (v, rest) => if skipSpace rest = [] then some v else none

/-- A lower-case hexadecimal digit. -/
def lowerHex (n : Nat) : Char :=
  if n < 10 then Char.ofNat (48 + n) else Char.ofNat (87 + n)

/-- The characters of a string inside a JSON string literal. -/
def quoteChar (c : Char) : List Char :=
  if c = '"' then ['\\', '"']
  else if c = '\\' then ['\\', '\\']
  else if c = '\n' then ['\\', 'n']
  else if c = '\r' then ['\\', 'r']
  else if c = '\t' then ['\\', 't']
  else if c.toNat = 8 then ['\\', 'b']
  else if c.toNat = 12 then ['\\', 'f']
  else if c.toNat < 0x20 then ['\\', 'u', '0', '0', lowerHex (c.toNat / 16), lowerHex (c.toNat % 16)]
  else [c]

def quote (s : String) : String :=
  String.mk ('"' :: s.data.flatMap quoteChar ++ ['"'])

mutual

/-- The sample `JSON.stringify`: it throws on a BigInt; on `undefined` it
gives the text that string concatenation makes of its result. -/
def jsonStringify : JSVal → Except String String
  | undefined => .ok "undefined"
  | null => .ok "null"
  | JSVal.bool b => .ok (if b then "true" else "false")
  | num n => .ok (numberText n)
  | nan => .ok "null"
  | infinity => .ok "null"
  | negInfinity => .ok "null"
  | bigint _ => .error "Do not know how to serialize a BigInt"
  | str s => .ok (quote s)
  | arr items =>
    match stringifyItems items with
    | .error msg => .error msg
    | .ok texts => .ok ("[" ++ ",".intercalate texts ++ "]")
  | obj props =>
    match stringifyProps props with
    | .error msg => .error msg
    | .ok texts => .ok ("\x7b" ++ ",".intercalate texts ++ "\x7d")

/-- The texts of the elements of an array: `undefined` is written `null`. -/
def stringifyItems : List JSVal → Except String (List String)
  | [] => .ok []
  | undefined :: rest =>
    match stringifyItems rest with
    | .error msg => .error msg
    | .ok texts => .ok ("null" :: texts)
  | v :: rest =>
    match jsonStringify v with
    | .error msg => .error msg
    | .ok text =>
      match stringifyItems rest with
      | .error msg => .error msg
      | .ok texts => .ok (text :: texts)

/-- The texts of the properties of an object: a property whose value is
`undefined` is left out. -/
def stringifyProps : List (String × JSVal) → Except String (List String)
  | [] => .ok []
  | (_, undefined) :: rest => stringifyProps rest
  | (k, v) :: rest =>
    match jsonStringify v with
    | .error msg => .error msg
    | .ok text =>
      match stringifyProps rest with
      | .error msg => .error msg
      | .ok texts => .ok ((quote k ++ ":" ++ text) :: texts)

end

mutual

/-- The sample `ToString` conversion.  An object with a property `toString`
of its own, which is no function, has no primitive value. -/
def toStr : JSVal → Except String String
  | undefined => .ok "undefined"
  | null => .ok "null"
  | JSVal.bool b => .ok (if b then "true" else "false")
  | num n => .ok (numberText n)
  | nan => .ok "NaN"
  | infinity => .ok "Infinity"
  | negInfinity => .ok "-Infinity"
  | bigint n => .ok (toString n)
  | str s => .ok s
  | arr items =>
    match toStrItems items with
    | .error msg => .error msg
    | .ok texts => .ok (",".intercalate texts)
  | obj props =>
    if props.any (fun p => p.1 = "toString") then
      .error "Cannot convert object to primitive value"
    else .ok "[object Object]"

/-- The texts joined by `Array.prototype.join`: `undefined` and `null` give
the empty text. -/
def toStrItems : List JSVal → Except String (List String)
  | [] => .ok []
  | undefined :: rest =>
    match toStrItems rest with
    | .error msg => .error msg
    | .ok texts => .ok ("" :: texts)
  | null :: rest =>
    match toStrItems rest with
    | .error msg => .error msg
    | .ok texts => .ok ("" :: texts)
  | v :: rest =>
    match toStr v with
    | .error msg => .error msg
    | .ok text =>
      match toStrItems rest with
      | .error msg => .error msg
      | .ok texts => .ok (text :: texts)

end

end Sample

/-- The sample runtime. -/
def sampleRuntime : Runtime :=
  ⟨Sample.jsonParse, Sample.jsonStringify, Sample.toStr⟩

/-- The sample runtime as an engine, for runs in which `JSON.stringify` is
given no BigInt (where the runtime throws, the text is empty). -/
def sampleEngine : Engine :=
  ⟨Sample.jsonParse,
   fun v =>
     match Sample.jsonStringify v with
     | .ok text => text
     | .error _ => "",
   Sample.toStr⟩

namespace Sample

/-- An axios error carrying a response with the given status. -/
def statusError (status : Int) : JSVal :=
  obj [("isAxiosError", JSVal.bool true), ("name", str "AxiosError"),
       ("message", str "Request failed"), ("code", str "ERR_BAD_RESPONSE"),
       ("response", obj [("status", num status), ("data", str "oops")])]

/-- An axios error with a request object and no response. -/
def timeoutError : JSVal :=
  obj [("isAxiosError", JSVal.bool true), ("name", str "AxiosError"),
       ("message", str "timeout of 1000ms exceeded"), ("code", str "ECONNABORTED"),
       ("request", obj [])]

/-- An error whose response body is a BigInt. -/
def bigintError : JSVal :=
  obj [("response", obj [("status", num 500), ("data", bigint 10)])]

/-- A client whose every call resolves with a response of status 200. -/
def okClient : Nat → Except JSVal JSVal :=
  fun _ => .ok (obj [("status", num 200), ("data", str "done")])

/-- An instance configuration with a JSON content type. -/
def jsonConfig : JSVal :=
  obj [("headers", obj [("Content-Type", str "application/json")])]

/-- An instance configuration with the URL-encoded content type. -/
def formConfig : JSVal :=
  obj [("headers", obj [("Content-Type", str "application/x-www-form-urlencoded")])]

/-- Options that ignore status 404 and allow two retries, 100 ms apart. -/
def options (preventFailureOnNoResponse : Bool) : Options :=
  ⟨[404], preventFailureOnNoResponse, false, some 2, 100⟩

end Sample

/-! ## Global replacement -/

theorem replaceGlobal_skip (m : List Char → Option Nat) (f : List Char → List Char)
    (xs ys : List Char) :
    replaceGlobal m f xs.length (xs ++ ys) = replaceGlobal m f 0 ys := by
  induction xs with
  | nil => rfl
  | cons x xs ih => simpa [replaceGlobal] using ih

theorem replaceGlobal_copy (m : List Char → Option Nat) (f : List Char → List Char)
    (xs ys : List Char) (h : ∀ c ∈ xs, ∀ rest, m (c :: rest) = none) :
    replaceGlobal m f 0 (xs ++ ys) = xs ++ replaceGlobal m f 0 ys := by
  induction xs with
  | nil => rfl
  | cons x xs ih =>
    have hx : m (x :: (xs ++ ys)) = none := h x (List.mem_cons_self _ _) _
    have ih2 := ih (fun c hc rest => h c (List.mem_cons_of_mem _ hc) rest)
    simp [replaceGlobal, hx, ih2]

theorem replaceGlobal_copy_all (m : List Char → Option Nat) (f : List Char → List Char)
    (xs : List Char) (h : ∀ c ∈ xs, ∀ rest, m (c :: rest) = none) :
    replaceGlobal m f 0 xs = xs := by
  have := replaceGlobal_copy m f xs [] h
  simpa [replaceGlobal] using this

theorem replaceGlobal_match (m : List Char → Option Nat) (f : List Char → List Char)
    (c : Char) (xs ys : List Char) (h : m (c :: (xs ++ ys)) = some (xs.length + 1)) :
    replaceGlobal m f 0 (c :: (xs ++ ys)) = f (c :: xs) ++ replaceGlobal m f 0 ys := by
  simp [replaceGlobal, h, replaceGlobal_skip]

/-! ## The escape step -/

theorem takeWhile_append_stop (p : Char → Bool) (xs : List Char) (q : Char) (rest : List Char)
    (hxs : ∀ c ∈ xs, p c = true) (hq : p q = false) :
    (xs ++ q :: rest).takeWhile p = xs ∧ (xs ++ q :: rest).dropWhile p = q :: rest := by
  induction xs with
  | nil => simp [List.takeWhile, List.dropWhile, hq]
  | cons x xs ih =>
    have hx : p x = true := hxs x (List.mem_cons_self _ _)
    have ih2 := ih (fun c hc => hxs c (List.mem_cons_of_mem _ hc))
    simp [List.takeWhile, List.dropWhile, hx, ih2]

theorem takeWhile_all (p : Char → Bool) (xs : List Char) (hxs : ∀ c ∈ xs, p c = true) :
    xs.takeWhile p = xs ∧ xs.dropWhile p = [] := by
  induction xs with
  | nil => simp
  | cons x xs ih =>
    have hx : p x = true := hxs x (List.mem_cons_self _ _)
    have ih2 := ih (fun c hc => hxs c (List.mem_cons_of_mem _ hc))
    simp [List.takeWhile, List.dropWhile, hx, ih2]

theorem not_quote_of_not_mem (xs : List Char) (h : '"' ∉ xs) :
    ∀ c ∈ xs, (c != '"') = true := by
  intro c hc
  have : c ≠ '"' := fun e => h (e ▸ hc)
  simpa using this

theorem matchQuoted_other (c : Char) (rest : List Char) (h : c ≠ '"') :
    matchQuoted (c :: rest) = none := by
  simp [matchQuoted, h]

theorem matchQuoted_closed (mid rest : List Char) (h : '"' ∉ mid) :
    matchQuoted ('"' :: (mid ++ '"' :: rest)) = some (mid.length + 2) := by
  have hs := takeWhile_append_stop (fun d => d != '"') mid '"' rest
    (not_quote_of_not_mem mid h) (by decide)
  simp [matchQuoted, hs.1, hs.2]

theorem matchQuoted_open (mid : List Char) (h : '"' ∉ mid) :
    matchQuoted ('"' :: mid) = none := by
  have hs := takeWhile_all (fun d => d != '"') mid (not_quote_of_not_mem mid h)
  simp [matchQuoted, hs.2]

theorem isSpace_of_isNewline (c : Char) (h : isNewline c = true) : isSpace c = true := by
  simp only [isNewline, Bool.or_eq_true, decide_eq_true_eq] at h
  rcases h with h | h <;> subst h <;> decide

theorem matchNewline_other (c : Char) (rest : List Char) (h : isNewline c = false) :
    matchNewline (c :: rest) = none := by
  simp [matchNewline, h]

theorem escapeNewlines_copy (a b : List Char) (ha : ∀ c ∈ a, isNewline c = false) :
    escapeNewlines (a ++ b) = a ++ escapeNewlines b :=
  replaceGlobal_copy _ _ a b (fun c hc rest => matchNewline_other c rest (ha c hc))

theorem escapeNewlines_newline (n : Char) (ws b : List Char) (hn : isNewline n = true)
    (hws : ∀ c ∈ ws, isSpace c = true) (hb : ∀ c ∈ b.head?, isSpace c = false) :
    escapeNewlines (n :: (ws ++ b)) = '\\' :: 'n' :: escapeNewlines b := by
  have hlen : ((ws ++ b).takeWhile isSpace).length = ws.length := by
    cases b with
    | nil => simp [(takeWhile_all isSpace ws hws).1]
    | cons q rest =>
      have hq : isSpace q = false := hb q (by simp)
      simp [(takeWhile_append_stop isSpace ws q rest hws hq).1]
  have hm : matchNewline (n :: (ws ++ b)) = some (ws.length + 1) := by
    simp [matchNewline, hn, hlen]
  simpa [escapeNewlines] using replaceGlobal_match matchNewline (fun _ => ['\\', 'n']) n ws b hm

theorem replaceNewline_no_newline (s : List Char) :
    ∀ k, ∀ c ∈ replaceGlobal matchNewline (fun _ => ['\\', 'n']) k s, isNewline c = false := by
  induction s with
  | nil => intro k c hc; simp [replaceGlobal] at hc
  | cons x xs ih =>
    intro k c hc
    cases k with
    | succ k => exact ih k c (by simpa [replaceGlobal] using hc)
    | zero =>
      by_cases hx : isNewline x = true
      · have hc2 : c = '\\' ∨ c = 'n' ∨
            c ∈ replaceGlobal matchNewline (fun _ => ['\\', 'n'])
              (xs.takeWhile isSpace).length xs := by
          simpa [replaceGlobal, matchNewline, hx] using hc
        rcases hc2 with h | h | h
        · rw [h]; decide
        · rw [h]; decide
        · exact ih _ c h
      · have hx2 : isNewline x = false := by simpa using hx
        have hc2 : c = x ∨ c ∈ replaceGlobal matchNewline (fun _ => ['\\', 'n']) 0 xs := by
          simpa [replaceGlobal, matchNewline, hx2] using hc
        rcases hc2 with h | h
        · rw [h]; exact hx2
        · exact ih 0 c h

theorem takeWhile_snoc_stop (p : Char → Bool) (q : Char) (hq : p q = false) (xs : List Char) :
    (xs ++ [q]).takeWhile p = xs.takeWhile p := by
  induction xs with
  | nil => simp [List.takeWhile, hq]
  | cons x xs ih =>
    cases hx : p x <;> simp [List.takeWhile, hx, ih]

theorem length_takeWhile_le_length (p : Char → Bool) (xs : List Char) :
    (xs.takeWhile p).length ≤ xs.length :=
  (List.takeWhile_sublist p).length_le

theorem replaceNewline_snoc (q : Char) (hq : isSpace q = false) (s : List Char) :
    ∀ k, k ≤ s.length →
      replaceGlobal matchNewline (fun _ => ['\\', 'n']) k (s ++ [q]) =
        replaceGlobal matchNewline (fun _ => ['\\', 'n']) k s ++ [q] := by
  have hqn : isNewline q = false := by
    cases h : isNewline q with
    | false => rfl
    | true => rw [isSpace_of_isNewline q h] at hq; exact absurd hq (by decide)
  induction s with
  | nil =>
    intro k hk
    have hk0 : k = 0 := by simpa using hk
    subst hk0
    simp [replaceGlobal, matchNewline, hqn]
  | cons x xs ih =>
    intro k hk
    cases k with
    | succ k =>
      have hk2 : k ≤ xs.length := by simpa using hk
      simpa [replaceGlobal] using ih k hk2
    | zero =>
      by_cases hx : isNewline x = true
      · have htw := takeWhile_snoc_stop isSpace q hq xs
        have hle := length_takeWhile_le_length isSpace xs
        simp [replaceGlobal, matchNewline, hx, htw, ih _ hle]
      · have hx2 : isNewline x = false := by simpa using hx
        simp [replaceGlobal, matchNewline, hx2, ih 0 (Nat.zero_le _)]

theorem escapeNewlines_quoted (mid : List Char) :
    escapeNewlines ('"' :: (mid ++ ['"'])) = '"' :: (escapeNewlines mid ++ ['"']) := by
  have h1 := escapeNewlines_copy ['"'] (mid ++ ['"']) (by decide)
  have h2 := replaceNewline_snoc '"' (by decide) mid 0 (Nat.zero_le _)
  simp only [List.singleton_append] at h1
  rw [h1]
  simp [escapeNewlines, h2]

theorem escapeChars_quoted (pre mid rest : List Char) (hpre : '"' ∉ pre) (hmid : '"' ∉ mid) :
    escapeChars (pre ++ '"' :: mid ++ '"' :: rest) =
      pre ++ '"' :: escapeNewlines mid ++ '"' :: escapeChars rest := by
  have hcopy : ∀ c ∈ pre, ∀ r, matchQuoted (c :: r) = none :=
    fun c hc r => matchQuoted_other c r (fun e => hpre (e ▸ hc))
  have hm : matchQuoted ('"' :: ((mid ++ ['"']) ++ rest)) = some ((mid ++ ['"']).length + 1) := by
    simpa using matchQuoted_closed mid rest hmid
  have h := replaceGlobal_match matchQuoted escapeNewlines '"' (mid ++ ['"']) rest hm
  have e1 : pre ++ '"' :: mid ++ '"' :: rest = pre ++ ('"' :: ((mid ++ ['"']) ++ rest)) := by simp
  rw [e1]
  unfold escapeChars
  rw [replaceGlobal_copy _ _ pre _ hcopy, h, escapeNewlines_quoted]
  simp

theorem escapeChars_unquoted (pre : List Char) (hpre : '"' ∉ pre) : escapeChars pre = pre :=
  replaceGlobal_copy_all _ _ pre (fun c hc r => matchQuoted_other c r (fun e => hpre (e ▸ hc)))

theorem escapeChars_unterminated (pre mid : List Char) (hpre : '"' ∉ pre) (hmid : '"' ∉ mid) :
    escapeChars (pre ++ '"' :: mid) = pre ++ '"' :: mid := by
  have hcopy : ∀ c ∈ pre, ∀ r, matchQuoted (c :: r) = none :=
    fun c hc r => matchQuoted_other c r (fun e => hpre (e ▸ hc))
  unfold escapeChars
  rw [replaceGlobal_copy _ _ pre _ hcopy]
  have hmid2 := escapeChars_unquoted mid hmid
  unfold escapeChars at hmid2
  simp [replaceGlobal, matchQuoted_open mid hmid, hmid2]

/-! ## Runs -/

@[simp] theorem Run.bind_eq {α β : Type} (x : Run α) (f : α → Run β) :
    x >>= f = Run.andThen x f := rfl

@[simp] theorem Run.pure_eq {α : Type} (a : α) : (pure a : Run α) = Run.ret a := rfl

@[simp] theorem Run.compute_events {α : Type} (x : Except JSVal α) :
    (Run.compute x).events = [] := rfl

@[simp] theorem Run.compute_result {α : Type} (x : Except JSVal α) :
    (Run.compute x).result = x := rfl

@[simp] theorem stringify_engine (E : Engine) (v : JSVal) :
    stringify E.toRuntime v = .ok (E.jsonStringify v) := rfl

@[simp] theorem jsonParse_engine (E : Engine) : E.toRuntime.jsonParse = E.jsonParse := rfl

@[simp] theorem toStr_engine (E : Engine) : E.toRuntime.toStr = E.toStr := rfl

theorem getProp_ok (v : JSVal) (name : String) (h : v.nullish = false) :
    getProp v name = .ok (prop v name) := by
  cases v <;> simp [JSVal.nullish] at h <;> rfl

theorem nullish_of_truthy (v : JSVal) (h : v.truthy = true) : v.nullish = false := by
  cases v <;> simp [JSVal.truthy] at h <;> rfl

theorem nullish_of_prop_truthy (v : JSVal) (name : String)
    (h : (prop v name).truthy = true) : v.nullish = false := by
  cases v with
  | undefined => simp [JSVal.prop, JSVal.truthy] at h
  | null => simp [JSVal.prop, JSVal.truthy] at h
  | _ => rfl

theorem typeError_not_nullish (msg : String) : (typeError msg).nullish = false := rfl

theorem raisedBy_not_nullish (e : JSVal) : (raisedBy e).nullish = false := by
  cases e <;> rfl

theorem raisedBy_eq (e : JSVal) (h : e.nullish = false) : raisedBy e = e := by
  cases e <;> simp [JSVal.nullish] at h <;> rfl

/-! ## `execRequest` -/

theorem execRequest_ok (E : Engine) (o : Options) (d v : JSVal) :
    execRequest E o d (.ok v) = ⟨[Event.dispatch d], .ok v⟩ := by
  simp [execRequest, Run.tryCatch, Run.andThen, Run.emit, Run.compute]

theorem execRequest_ignored (E : Engine) (o : Options) (d e : JSVal)
    (h : ignoredStatus o e = true) :
    execRequest E o d (.error e) =
      ⟨[Event.dispatch d, Event.warning (ignoredWarning E e)], .ok (prop e "response")⟩ := by
  simp only [ignoredStatus, Bool.and_eq_true] at h
  obtain ⟨h1, h2⟩ := h
  have hn : e.nullish = false := nullish_of_prop_truthy e _ h1
  have hr := nullish_of_truthy _ h1
  simp [execRequest, execRequestCatch, Run.tryCatch, Run.andThen, Run.emit, Run.compute, Run.ret,
    getProp_ok _ _ hn, getProp_ok _ _ hr, h1, h2, ignoredWarning]

theorem execRequest_suppressed (E : Engine) (o : Options) (d e : JSVal)
    (h : suppressedNoResponse o e = true) :
    execRequest E o d (.error e) =
      ⟨[Event.dispatch d, Event.warning ("no response received: " ++ E.jsonStringify e)],
        .ok null⟩ := by
  simp only [suppressedNoResponse, Bool.and_eq_true, Bool.not_eq_true'] at h
  obtain ⟨⟨h1, h2⟩, h3⟩ := h
  have hn : e.nullish = false := nullish_of_prop_truthy e _ h2
  simp [execRequest, execRequestCatch, Run.tryCatch, Run.andThen, Run.emit, Run.compute, Run.ret,
    getProp_ok _ _ hn, h1, h2, h3]

theorem execRequest_rethrown (E : Engine) (o : Options) (d e : JSVal)
    (hi : ignoredStatus o e = false) (hs : suppressedNoResponse o e = false) :
    execRequest E o d (.error e) = ⟨[Event.dispatch d], .error (raisedBy e)⟩ := by
  cases hn : e.nullish with
  | true =>
    cases e <;> simp [JSVal.nullish] at hn <;>
      simp [execRequest, execRequestCatch, Run.tryCatch, Run.andThen, Run.emit, Run.compute,
        getProp, raisedBy]
  | false =>
    rw [raisedBy_eq e hn]
    cases hr : (prop e "response").truthy with
    | true =>
      have hrn := nullish_of_truthy _ hr
      have hi2 : includesStatus o.ignoredCodes (prop (prop e "response") "status") = false := by
        simpa [ignoredStatus, hr] using hi
      simp [execRequest, execRequestCatch, Run.tryCatch, Run.andThen, Run.emit, Run.compute,
        Run.ret, Run.raise, getProp_ok _ _ hn, getProp_ok _ _ hrn, hr, hi2]
    | false =>
      have hs2 : ((prop e "request").truthy && o.preventFailureOnNoResponse) = false := by
        simpa [suppressedNoResponse, hr] using hs
      simp only [Bool.and_eq_false_iff] at hs2
      rcases hs2 with hs2 | hs2 <;>
        simp [execRequest, execRequestCatch, Run.tryCatch, Run.andThen, Run.emit, Run.compute,
          Run.ret, Run.raise, getProp_ok _ _ hn, hr, hs2]

/-- Every outcome of `execRequest`: one dispatch, at most one warning, and a
raised error is never `undefined` or `null`. -/
theorem execRequest_cases (E : Engine) (o : Options) (d : JSVal) (a : Except JSVal JSVal) :
    (∃ v, execRequest E o d a = ⟨[Event.dispatch d], .ok v⟩) ∨
    (∃ w v, execRequest E o d a = ⟨[Event.dispatch d, Event.warning w], .ok v⟩) ∨
    (∃ e, e.nullish = false ∧ execRequest E o d a = ⟨[Event.dispatch d], .error e⟩) := by
  cases a with
  | ok v => exact Or.inl ⟨v, execRequest_ok E o d v⟩
  | error e =>
    cases hi : ignoredStatus o e with
    | true => exact Or.inr (Or.inl ⟨_, _, execRequest_ignored E o d e hi⟩)
    | false =>
      cases hs : suppressedNoResponse o e with
      | true => exact Or.inr (Or.inl ⟨_, _, execRequest_suppressed E o d e hs⟩)
      | false =>
        exact Or.inr (Or.inr ⟨_, raisedBy_not_nullish e, execRequest_rethrown E o d e hi hs⟩)

/-! ## `retry` -/

theorem retry_zero (cb : Nat → Run JSVal) (w i : Nat) : retry cb w 0 i = cb i := rfl

theorem retry_succ_ok (cb : Nat → Run JSVal) (w b i : Nat) (evs : List Event) (v : JSVal)
    (h : cb i = ⟨evs, .ok v⟩) : retry cb w (b + 1) i = ⟨evs, .ok v⟩ := by
  simp [retry, Run.tryCatch, h]

theorem retry_succ_error (cb : Nat → Run JSVal) (w b i : Nat) (evs : List Event) (e : JSVal)
    (h : cb i = ⟨evs, .error e⟩) :
    retry cb w (b + 1) i =
      ⟨evs ++ Event.sleep w :: (retry cb w b (i + 1)).events, (retry cb w b (i + 1)).result⟩ := by
  simp [retry, Run.tryCatch, Run.andThen, Run.emit, h]

theorem intersperse_replicate_succ (sep x : Event) (n : Nat) :
    List.intersperse sep (List.replicate (n + 2) x) =
      x :: sep :: List.intersperse sep (List.replicate (n + 1) x) := by
  simp [List.replicate_succ, List.intersperse]

/-- When the first `k` attempts raise an error with a single dispatch each,
`retry` with a budget of at least `k` reaches attempt `k` after `k` waits. -/
theorem retry_first_failures (cb : Nat → Run JSVal) (w : Nat) (d : JSVal) :
    ∀ (k b i : Nat), k ≤ b →
      (∀ j < k, ∃ e, cb (i + j) = ⟨[Event.dispatch d], .error e⟩) →
      (retry cb w b i).events =
        (List.replicate k (Event.dispatch d)).flatMap (fun x => [x, Event.sleep w]) ++
          (retry cb w (b - k) (i + k)).events ∧
      (retry cb w b i).result = (retry cb w (b - k) (i + k)).result := by
  intro k
  induction k with
  | zero => intro b i _ _; simp
  | succ k ih =>
    intro b i hk hfail
    cases b with
    | zero => omega
    | succ b =>
      obtain ⟨e, he⟩ := hfail 0 (Nat.succ_pos _)
      have he2 : cb i = ⟨[Event.dispatch d], .error e⟩ := by simpa using he
      have hrest := ih b (i + 1) (by omega) (fun j hj => by
        have := hfail (j + 1) (by omega)
        simpa [Nat.add_assoc, Nat.add_comm 1 j] using this)
      rw [retry_succ_error cb w b i _ e he2]
      have e1 : b + 1 - (k + 1) = b - k := by omega
      have e2 : i + 1 + k = i + (k + 1) := by omega
      rw [e1, ← e2]
      refine ⟨?_, hrest.2⟩
      simp [hrest.1, List.replicate_succ]

/-! ## The terminal handler -/

theorem reportAxiosError_eq (E : Engine) (e : JSVal) (hn : e.nullish = false) :
    reportAxiosError E e =
      ⟨if isAxiosError e then
          [Event.setOutput "requestError" (E.jsonStringify (requestErrorRecord e))]
        else [], .ok ()⟩ := by
  cases ht : decide (e.typeof = "object") with
  | false =>
    have ht2 : ¬ e.typeof = "object" := by simpa using ht
    simp [reportAxiosError, isAxiosError, ht2, Run.andThen, Run.ret]
  | true =>
    have ht2 : e.typeof = "object" := by simpa using ht
    cases hm : (match prop e "isAxiosError" with
                | JSVal.bool true => true
                | _ => false) with
    | false =>
      simp [reportAxiosError, isAxiosError, ht2, Run.andThen, Run.ret, Run.compute,
        getProp_ok _ _ hn, hm]
    | true =>
      cases hr : (prop e "response").truthy with
      | false =>
        simp [reportAxiosError, isAxiosError, ht2, Run.andThen, Run.ret, Run.compute, Run.emit,
          getProp_ok _ _ hn, hm, hr, requestErrorRecord, statusOrNull]
      | true =>
        have hrn := nullish_of_truthy _ hr
        cases hst : (prop (prop e "response") "status").truthy <;>
          simp [reportAxiosError, isAxiosError, ht2, Run.andThen, Run.ret, Run.compute, Run.emit,
            getProp_ok _ _ hn, getProp_ok _ _ hrn, hm, hr, hst, requestErrorRecord,
            statusOrNull]

theorem reportFailure_eq (E : Engine) (e : JSVal) (data : Option String)
    (hn : e.nullish = false) :
    reportFailure E e data =
      ⟨[Event.setFailed (E.jsonStringify (failureRecord e data))], .ok ()⟩ := by
  cases hr : (prop e "response").truthy with
  | true =>
    have hrn := nullish_of_truthy _ hr
    simp [reportFailure, failureRecord, Run.andThen, Run.compute, Run.emit,
      getProp_ok _ _ hn, getProp_ok _ _ hrn, hr]
  | false =>
    cases hq : (prop e "request").truthy <;>
      simp [reportFailure, failureRecord, Run.andThen, Run.compute, Run.emit,
        getProp_ok _ _ hn, hr, hq]

theorem catchHandler_eq (E : Engine) (e : JSVal) (data : Option String)
    (hn : e.nullish = false) :
    catchHandler E e data = ⟨terminalTrace E e data, .ok undefined⟩ := by
  simp [catchHandler, reportAxiosError_eq E e hn, reportFailure_eq E e data hn, Run.andThen,
    Run.ret, terminalTrace]

theorem terminalTrace_counts (E : Engine) (e : JSVal) (data : Option String) :
    (terminalTrace E e data).countP Event.isSetFailed = 1 ∧
    (terminalTrace E e data).countP Event.isDispatch = 0 ∧
    (terminalTrace E e data).countP Event.isWarning = 0 ∧
    (terminalTrace E e data).countP Event.isSleep = 0 := by
  cases h : isAxiosError e <;>
    simp [terminalTrace, h, List.countP_cons, Event.isSetFailed, Event.isDispatch,
      Event.isWarning, Event.isSleep]

/-! ## `request` -/

theorem request_unfold (E : Engine) (client : Nat → Except JSVal JSVal) (method : String)
    (cfg : JSVal) (data : Option String) (o : Options) :
    request E client method cfg data o =
      match (tryBlock E client method cfg data o).1.result with
      | .ok v =>
        ⟨Event.debug ("options: " ++ E.jsonStringify o.toJS) ::
          (tryBlock E client method cfg data o).1.events, .ok v⟩
      | .error e =>
        ⟨Event.debug ("options: " ++ E.jsonStringify o.toJS) ::
          ((tryBlock E client method cfg data o).1.events ++
            (catchHandler E e (tryBlock E client method cfg data o).2).events),
          (catchHandler E e (tryBlock E client method cfg data o).2).result⟩ := by
  cases h : (tryBlock E client method cfg data o).1.result <;>
    simp [request, Run.tryCatch, Run.andThen, Run.emit, h]

theorem tryBlock_dispatching (E : Engine) (client : Nat → Except JSVal JSVal) (method : String)
    (cfg : JSVal) (data d1 d3 : Option String) (o : Options)
    (h1 : escapeStep o data = .ok d1) (h3 : formStep E cfg (getStep method d1) = .ok d3) :
    (tryBlock E client method cfg data o).2 = d3 ∧
    (tryBlock E client method cfg data o).1.events =
      Event.debug ("Instance Configuration: " ++ E.jsonStringify cfg) ::
      Event.debug ("Request Data: " ++ E.jsonStringify (requestData method d3)) ::
      (retryRun E client method o d3).events ∧
    (tryBlock E client method cfg data o).1.result =
      match (retryRun E client method o d3).result with
      | .ok v => .ok (if !v.truthy then null else v)
      | .error e => .error e := by
  cases hr : (retryRun E client method o d3).result with
  | ok v =>
    have hr2 := hr
    unfold retryRun at hr2
    cases hv : v.truthy <;>
      simp [tryBlock, h1, h3, Run.andThen, Run.emit, Run.ret, retryRun, hr2, hv]
  | error e =>
    have hr2 := hr
    unfold retryRun at hr2
    simp [tryBlock, h1, h3, Run.andThen, Run.emit, Run.ret, retryRun, hr2]

/-- The events and the result of `request` once pre-processing has succeeded,
in terms of the call of `retry`. -/
theorem request_dispatching (E : Engine) (client : Nat → Except JSVal JSVal) (method : String)
    (cfg : JSVal) (data d1 d3 : Option String) (o : Options)
    (h1 : escapeStep o data = .ok d1) (h3 : formStep E cfg (getStep method d1) = .ok d3) :
    request E client method cfg data o =
      match (retryRun E client method o d3).result with
      | .ok v =>
        ⟨Event.debug ("options: " ++ E.jsonStringify o.toJS) ::
          Event.debug ("Instance Configuration: " ++ E.jsonStringify cfg) ::
          Event.debug ("Request Data: " ++ E.jsonStringify (requestData method d3)) ::
          (retryRun E client method o d3).events, .ok (if !v.truthy then null else v)⟩
      | .error e =>
        ⟨Event.debug ("options: " ++ E.jsonStringify o.toJS) ::
          Event.debug ("Instance Configuration: " ++ E.jsonStringify cfg) ::
          Event.debug ("Request Data: " ++ E.jsonStringify (requestData method d3)) ::
          ((retryRun E client method o d3).events ++ (catchHandler E e d3).events),
          (catchHandler E e d3).result⟩ := by
  obtain ⟨t2, tev, tres⟩ := tryBlock_dispatching E client method cfg data d1 d3 o h1 h3
  rw [request_unfold, tres, tev, t2]
  cases (retryRun E client method o d3).result <;> simp

/-! ## Traces of attempts -/

theorem intersperse_replicate (sep x : Event) (k : Nat) :
    List.intersperse sep (List.replicate (k + 1) x) =
      (List.replicate k x).flatMap (fun y => [y, sep]) ++ [x] := by
  induction k with
  | zero => rfl
  | succ k ih =>
    rw [intersperse_replicate_succ, ih]
    simp [List.replicate_succ]

theorem attempts_counts (w : Nat) (d : JSVal) (k : Nat) :
    ((List.replicate k (Event.dispatch d)).flatMap (fun y => [y, Event.sleep w])).countP
        Event.isDispatch = k ∧
    ((List.replicate k (Event.dispatch d)).flatMap (fun y => [y, Event.sleep w])).countP
        Event.isSleep = k ∧
    ((List.replicate k (Event.dispatch d)).flatMap (fun y => [y, Event.sleep w])).countP
        Event.isSetFailed = 0 ∧
    ((List.replicate k (Event.dispatch d)).flatMap (fun y => [y, Event.sleep w])).countP
        Event.isWarning = 0 := by
  induction k with
  | zero => simp
  | succ k ih =>
    obtain ⟨a, b, c, e⟩ := ih
    simp [List.replicate_succ, List.countP_cons, Event.isDispatch, Event.isSleep,
      Event.isSetFailed, Event.isWarning, a, b, c, e]

theorem attemptsTrace_counts (E : Engine) (method : String) (cfg : JSVal) (o : Options)
    (body : Option String) (k : Nat) :
    (attemptsTrace E method cfg o body k).countP Event.isDispatch = k + 1 ∧
    (attemptsTrace E method cfg o body k).countP Event.isSleep = k ∧
    (attemptsTrace E method cfg o body k).countP Event.isSetFailed = 0 ∧
    (attemptsTrace E method cfg o body k).countP Event.isWarning = 0 := by
  obtain ⟨a, b, c, e⟩ := attempts_counts o.retryWait (requestData method body) k
  simp [attemptsTrace, intersperse_replicate, List.countP_cons, List.countP_append,
    Event.isDispatch, Event.isSleep, Event.isSetFailed, Event.isWarning, a, b, c, e]

theorem retry_ok (cb : Nat → Run JSVal) (w b i : Nat) (evs : List Event) (v : JSVal)
    (h : cb i = ⟨evs, .ok v⟩) : retry cb w b i = ⟨evs, .ok v⟩ := by
  cases b with
  | zero => simpa [retry] using h
  | succ b => exact retry_succ_ok cb w b i evs v h

/-- The call of `retry` when the first `k` attempts are re-raised errors:
`k` dispatches, each followed by a wait, then the rest of the run from
attempt `k` with the remaining budget. -/
theorem retryRun_reaches (E : Engine) (client : Nat → Except JSVal JSVal) (method : String)
    (o : Options) (body : Option String) (k : Nat) (hk : k ≤ retryBudget o)
    (hprev : ∀ j < k, ∃ e, client j = .error e ∧ ignoredStatus o e = false ∧
      suppressedNoResponse o e = false) :
    (retryRun E client method o body).events =
      (List.replicate k (Event.dispatch (requestData method body))).flatMap
          (fun y => [y, Event.sleep o.retryWait]) ++
        (retry (fun i => execRequest E o (requestData method body) (client i))
          o.retryWait (retryBudget o - k) k).events ∧
    (retryRun E client method o body).result =
      (retry (fun i => execRequest E o (requestData method body) (client i))
          o.retryWait (retryBudget o - k) k).result := by
  have h := retry_first_failures (fun i => execRequest E o (requestData method body) (client i))
    o.retryWait (requestData method body) k (retryBudget o) 0 hk (fun j hj => by
      obtain ⟨e, he, hi, hs⟩ := hprev j hj
      refine ⟨raisedBy e, ?_⟩
      simp only [Nat.zero_add, he]
      exact execRequest_rethrown E o _ e hi hs)
  simpa [retryRun] using h

/-- The run of `request` when pre-processing succeeds, the first `k` attempts
are re-raised errors and attempt `k` ends the call of `retry` with a value. -/
theorem request_ends_ok (E : Engine) (client : Nat → Except JSVal JSVal) (method : String)
    (cfg : JSVal) (data d1 d3 : Option String) (o : Options) (k : Nat) (tail : List Event)
    (v : JSVal)
    (h1 : escapeStep o data = .ok d1) (h3 : formStep E cfg (getStep method d1) = .ok d3)
    (hk : k ≤ retryBudget o)
    (hprev : ∀ j < k, ∃ e, client j = .error e ∧ ignoredStatus o e = false ∧
      suppressedNoResponse o e = false)
    (hlast : execRequest E o (requestData method d3) (client k) =
      ⟨Event.dispatch (requestData method d3) :: tail, .ok v⟩) :
    request E client method cfg data o =
      ⟨attemptsTrace E method cfg o d3 k ++ tail, .ok (if !v.truthy then null else v)⟩ := by
  obtain ⟨hev, hres⟩ := retryRun_reaches E client method o d3 k hk hprev
  have hr := retry_ok (fun i => execRequest E o (requestData method d3) (client i))
    o.retryWait (retryBudget o - k) k _ v hlast
  rw [hr] at hev hres
  rw [request_dispatching E client method cfg data d1 d3 o h1 h3, hres, hev]
  simp [attemptsTrace, intersperse_replicate]

/-- The run of `request` when pre-processing succeeds and all the attempts
the budget allows are re-raised errors. -/
theorem request_ends_failed (E : Engine) (client : Nat → Except JSVal JSVal) (method : String)
    (cfg : JSVal) (data d1 d3 : Option String) (o : Options) (last : JSVal)
    (h1 : escapeStep o data = .ok d1) (h3 : formStep E cfg (getStep method d1) = .ok d3)
    (hprev : ∀ j < retryBudget o, ∃ e, client j = .error e ∧ ignoredStatus o e = false ∧
      suppressedNoResponse o e = false)
    (hlast : client (retryBudget o) = .error last) (hi : ignoredStatus o last = false)
    (hs : suppressedNoResponse o last = false) :
    request E client method cfg data o =
      ⟨attemptsTrace E method cfg o d3 (retryBudget o) ++ terminalTrace E (raisedBy last) d3,
        .ok undefined⟩ := by
  obtain ⟨hev, hres⟩ := retryRun_reaches E client method o d3 (retryBudget o) (Nat.le_refl _) hprev
  have hx := execRequest_rethrown E o (requestData method d3) last hi hs
  simp only [Nat.sub_self, retry_zero, hlast, hx] at hev hres
  rw [request_dispatching E client method cfg data d1 d3 o h1 h3, hres, hev]
  simp [attemptsTrace, intersperse_replicate,
    catchHandler_eq E _ d3 (raisedBy_not_nullish last)]

/-! ## Retry and terminal failure -/

/-- C1: when `options.retry` is `N` (an absent `retry` counting as 0),
pre-processing has produced the body `d3`, and each of the attempts `0..N`
raises an error that is neither an ignored status nor a suppressed
no-response, `request` emits its three debug lines, then exactly `N + 1`
dispatches of the one descriptor built from `d3` separated by `N` waits of
`options.retryWait`, then the terminal report of the last error with exactly
one `setFailed`, and resolves with `undefined`. -/
theorem request_retries_then_fails (E : Engine) (client : Nat → Except JSVal JSVal)
    (method : String) (cfg : JSVal) (data d1 d3 : Option String) (o : Options) (N : Nat)
    (hN : o.retry = some N ∨ (o.retry = none ∧ N = 0))
    (h1 : escapeStep o data = .ok d1) (h3 : formStep E cfg (getStep method d1) = .ok d3)
    (hfail : ∀ i ≤ N, ∃ e, client i = .error e ∧ ignoredStatus o e = false ∧
      suppressedNoResponse o e = false) :
    ∃ last, client N = .error last ∧
      request E client method cfg data o =
        ⟨attemptsTrace E method cfg o d3 N ++ terminalTrace E (raisedBy last) d3,
          .ok undefined⟩ ∧
      attemptsTrace E method cfg o d3 N =
        [Event.debug ("options: " ++ E.jsonStringify o.toJS),
         Event.debug ("Instance Configuration: " ++ E.jsonStringify cfg),
         Event.debug ("Request Data: " ++ E.jsonStringify (requestData method d3))] ++
        List.intersperse (Event.sleep o.retryWait)
          (List.replicate (N + 1) (Event.dispatch (requestData method d3))) ∧
      (request E client method cfg data o).events.countP Event.isDispatch = N + 1 ∧
      (request E client method cfg data o).events.countP Event.isSleep = N ∧
      (request E client method cfg data o).events.countP Event.isSetFailed = 1 := by
  have hb : retryBudget o = N := by
    rcases hN with h | ⟨h, h0⟩
    · simp [retryBudget, h]
    · simp [retryBudget, h, h0]
  obtain ⟨last, hlast, hi, hs⟩ := hfail N (Nat.le_refl _)
  have hreq := request_ends_failed E client method cfg data d1 d3 o last h1 h3
    (fun j hj => hfail j (by omega)) (by rw [hb]; exact hlast) hi hs
  rw [hb] at hreq
  obtain ⟨a1, a2, a3, _⟩ := attemptsTrace_counts E method cfg o d3 N
  obtain ⟨t1, t2, _, t4⟩ := terminalTrace_counts E (raisedBy last) d3
  refine ⟨last, hlast, hreq, rfl, ?_, ?_, ?_⟩ <;>
    simp [hreq, List.countP_append, a1, a2, a3, t1, t2, t4]

theorem request_retries_then_fails_witness :
    (request sampleEngine (fun _ => .error (Sample.statusError 500)) "POST" Sample.jsonConfig
        (some "x") (Sample.options false)).events.countP Event.isDispatch = 2 + 1 ∧
    (request sampleEngine (fun _ => .error (Sample.statusError 500)) "POST" Sample.jsonConfig
        (some "x") (Sample.options false)).events.countP Event.isSetFailed = 1 := by
  obtain ⟨_, _, _, _, h1, _, h2⟩ := request_retries_then_fails sampleEngine
    (fun _ => .error (Sample.statusError 500)) "POST" Sample.jsonConfig (some "x") (some "x")
    (some "x") (Sample.options false) 2 (Or.inl rfl) rfl rfl
    (fun _ _ => ⟨Sample.statusError 500, rfl, rfl, rfl⟩)
  exact ⟨h1, h2⟩

/-! ## Ignored status codes and suppressed no-response errors -/

/-- C3: when pre-processing has produced the body `d3`, the attempts before
attempt `k` (within the budget) were re-raised errors, and attempt `k` raises
an error carrying a response whose status is in `options.ignoredCodes`, then
`request` resolves with exactly `error.response`; its events are the debug
lines, the `k + 1` dispatches with their waits, and one warning about the
ignored status, after which nothing follows: no further dispatch and no
`setFailed`. -/
theorem request_ignored_status (E : Engine) (client : Nat → Except JSVal JSVal)
    (method : String) (cfg : JSVal) (data d1 d3 : Option String) (o : Options) (k : Nat)
    (err : JSVal)
    (h1 : escapeStep o data = .ok d1) (h3 : formStep E cfg (getStep method d1) = .ok d3)
    (hk : k ≤ retryBudget o)
    (hprev : ∀ j < k, ∃ e, client j = .error e ∧ ignoredStatus o e = false ∧
      suppressedNoResponse o e = false)
    (herr : client k = .error err)
    (hresp : (prop err "response").truthy = true)
    (hcode : includesStatus o.ignoredCodes (prop (prop err "response") "status") = true) :
    request E client method cfg data o =
      ⟨attemptsTrace E method cfg o d3 k ++
        [Event.warning ("ignored status code: " ++ E.jsonStringify
          (obj [("code", prop (prop err "response") "status"),
                ("message", prop (prop err "response") "data")]))],
        .ok (prop err "response")⟩ ∧
    (request E client method cfg data o).events.countP Event.isWarning = 1 ∧
    (request E client method cfg data o).events.countP Event.isDispatch = k + 1 ∧
    (request E client method cfg data o).events.countP Event.isSetFailed = 0 := by
  have hi : ignoredStatus o err = true := by simp [ignoredStatus, hresp, hcode]
  have hx := execRequest_ignored E o (requestData method d3) err hi
  rw [← herr] at hx
  have hreq := request_ends_ok E client method cfg data d1 d3 o k _ _ h1 h3 hk hprev hx
  simp only [hresp, Bool.not_true, Bool.false_eq_true, if_false, ignoredWarning] at hreq
  obtain ⟨a1, _, a3, a4⟩ := attemptsTrace_counts E method cfg o d3 k
  refine ⟨hreq, ?_, ?_, ?_⟩ <;>
    simp [hreq, List.countP_append, List.countP_cons, a1, a3, a4, Event.isWarning,
      Event.isDispatch, Event.isSetFailed]

theorem request_ignored_status_witness :
    (request sampleEngine
        (fun i => if i = 0 then .error (Sample.statusError 500)
          else .error (Sample.statusError 404))
        "POST" Sample.jsonConfig (some "x") (Sample.options false)).result =
      .ok (obj [("status", num 404), ("data", str "oops")]) ∧
    (request sampleEngine
        (fun i => if i = 0 then .error (Sample.statusError 500)
          else .error (Sample.statusError 404))
        "POST" Sample.jsonConfig (some "x") (Sample.options false)).events.countP
        Event.isWarning = 1 := by
  obtain ⟨h, hw, _, _⟩ := request_ignored_status sampleEngine
    (fun i => if i = 0 then .error (Sample.statusError 500) else .error (Sample.statusError 404))
    "POST" Sample.jsonConfig (some "x") (some "x") (some "x") (Sample.options false) 1
    (Sample.statusError 404) rfl rfl (by decide)
    (fun j hj => ⟨Sample.statusError 500, by
      have h0 : j = 0 := by omega
      subst h0
      exact ⟨rfl, rfl, rfl⟩⟩)
    rfl rfl rfl
  exact ⟨by rw [h]; rfl, hw⟩

/-- C4: when pre-processing has produced the body `d3`, the attempts before
attempt `k` (within the budget) were re-raised errors, and attempt `k` raises
an error that has no response but has a request object: with
`options.preventFailureOnNoResponse` set, `request` resolves with `null` after
exactly one warning and no `setFailed`; with the flag unset, `execRequest`
re-raises that very error to `retry`, and when attempt `k` is the last one the
budget allows the error is reported by exactly one `setFailed` and `request`
resolves with `undefined`. -/
theorem request_no_response (E : Engine) (client : Nat → Except JSVal JSVal)
    (method : String) (cfg : JSVal) (data d1 d3 : Option String) (o : Options) (k : Nat)
    (err : JSVal)
    (h1 : escapeStep o data = .ok d1) (h3 : formStep E cfg (getStep method d1) = .ok d3)
    (hk : k ≤ retryBudget o)
    (hprev : ∀ j < k, ∃ e, client j = .error e ∧ ignoredStatus o e = false ∧
      suppressedNoResponse o e = false)
    (herr : client k = .error err)
    (hresp : (prop err "response").truthy = false)
    (hreq : (prop err "request").truthy = true) :
    (o.preventFailureOnNoResponse = true →
      request E client method cfg data o =
        ⟨attemptsTrace E method cfg o d3 k ++
          [Event.warning ("no response received: " ++ E.jsonStringify err)], .ok null⟩ ∧
      (request E client method cfg data o).events.countP Event.isWarning = 1 ∧
      (request E client method cfg data o).events.countP Event.isSetFailed = 0) ∧
    (o.preventFailureOnNoResponse = false →
      execRequest E o (requestData method d3) (client k) =
        ⟨[Event.dispatch (requestData method d3)], .error err⟩ ∧
      (k = retryBudget o →
        request E client method cfg data o =
          ⟨attemptsTrace E method cfg o d3 k ++ terminalTrace E err d3, .ok undefined⟩ ∧
        (request E client method cfg data o).events.countP Event.isSetFailed = 1 ∧
        (request E client method cfg data o).events.countP Event.isWarning = 0)) := by
  have hn : err.nullish = false := nullish_of_prop_truthy err _ hreq
  obtain ⟨_, _, a3, a4⟩ := attemptsTrace_counts E method cfg o d3 k
  constructor
  · intro hflag
    have hs : suppressedNoResponse o err = true := by
      simp [suppressedNoResponse, hresp, hreq, hflag]
    have hx := execRequest_suppressed E o (requestData method d3) err hs
    rw [← herr] at hx
    have hrun := request_ends_ok E client method cfg data d1 d3 o k _ _ h1 h3 hk hprev hx
    have hnull : (if (!JSVal.null.truthy) = true then JSVal.null else JSVal.null) = JSVal.null := by
      simp
    rw [hnull] at hrun
    refine ⟨hrun, ?_, ?_⟩ <;>
      simp [hrun, List.countP_append, List.countP_cons, a3, a4, Event.isWarning,
        Event.isSetFailed]
  · intro hflag
    have hi : ignoredStatus o err = false := by simp [ignoredStatus, hresp]
    have hs : suppressedNoResponse o err = false := by
      simp [suppressedNoResponse, hflag]
    have hx := execRequest_rethrown E o (requestData method d3) err hi hs
    rw [raisedBy_eq err hn] at hx
    refine ⟨by rw [herr]; exact hx, ?_⟩
    intro hlast
    subst hlast
    have hrun := request_ends_failed E client method cfg data d1 d3 o err h1 h3 hprev herr hi hs
    rw [raisedBy_eq err hn] at hrun
    obtain ⟨t1, _, t3, _⟩ := terminalTrace_counts E err d3
    refine ⟨hrun, ?_, ?_⟩ <;> simp [hrun, List.countP_append, a3, a4, t1, t3]

theorem request_no_response_witness :
    ((request sampleEngine (fun _ => .error Sample.timeoutError) "POST" Sample.jsonConfig
        (some "x") (Sample.options true)).result = .ok null ∧
     (request sampleEngine (fun _ => .error Sample.timeoutError) "POST" Sample.jsonConfig
        (some "x") (Sample.options true)).events.countP Event.isWarning = 1) ∧
    ((request sampleEngine (fun _ => .error Sample.timeoutError) "POST" Sample.jsonConfig
        (some "x") (Sample.options false)).result = .ok undefined ∧
     (request sampleEngine (fun _ => .error Sample.timeoutError) "POST" Sample.jsonConfig
        (some "x") (Sample.options false)).events.countP Event.isSetFailed = 1) := by
  have h := (request_no_response sampleEngine (fun _ => .error Sample.timeoutError) "POST"
    Sample.jsonConfig (some "x") (some "x") (some "x") (Sample.options true) 0
    Sample.timeoutError rfl rfl (Nat.zero_le _) (fun j hj => absurd hj (Nat.not_lt_zero j))
    rfl rfl rfl).1 rfl
  have g := ((request_no_response sampleEngine (fun _ => .error Sample.timeoutError) "POST"
    Sample.jsonConfig (some "x") (some "x") (some "x") (Sample.options false) 2
    Sample.timeoutError rfl rfl (Nat.le_refl _)
    (fun _ _ => ⟨Sample.timeoutError, rfl, rfl, rfl⟩) rfl rfl rfl).2 rfl).2 rfl
  exact ⟨⟨by rw [h.1], h.2.1⟩, ⟨by rw [g.1], g.2.1⟩⟩

/-! ## Nothing escapes `request` -/

theorem toUSVString_error (R : Runtime) (v e : JSVal) (h : toUSVString R v = .error e) :
    e.nullish = false := by
  cases hs : R.toStr v with
  | ok text => cases v <;> simp [toUSVString, hs] at h
  | error msg =>
    cases v <;> simp [toUSVString, hs] at h <;> rw [← h] <;> rfl

theorem tuplePair_error (R : Runtime) (x e : JSVal) (h : tuplePair R x = .error e) :
    e.nullish = false := by
  unfold tuplePair at h
  split at h
  · rename_i a b
    cases ha : toUSVString R a with
    | error t =>
      simp only [ha, Except.error.injEq] at h
      rw [← h]; exact toUSVString_error R a t ha
    | ok x =>
      cases hb : toUSVString R b with
      | error t =>
        simp only [ha, hb, Except.error.injEq] at h
        rw [← h]; exact toUSVString_error R b t hb
      | ok y => simp [ha, hb] at h
  · simp only [Except.error.injEq] at h
    rw [← h]; rfl

theorem tuplePairs_error (R : Runtime) (items : List JSVal) :
    ∀ e, tuplePairs R items = .error e → e.nullish = false := by
  induction items with
  | nil => intro e h; simp [tuplePairs] at h
  | cons x xs ih =>
    intro e h
    cases hx : tuplePair R x with
    | error t =>
      simp only [tuplePairs, hx, Except.error.injEq] at h
      rw [← h]; exact tuplePair_error R x t hx
    | ok p =>
      cases hr : tuplePairs R xs with
      | error t =>
        simp only [tuplePairs, hx, hr, Except.error.injEq] at h
        rw [← h]; exact ih t hr
      | ok ps => simp [tuplePairs, hx, hr] at h

theorem recordPairs_error (R : Runtime) (props : List (String × JSVal)) :
    ∀ e, recordPairs R props = .error e → e.nullish = false := by
  induction props with
  | nil => intro e h; simp [recordPairs] at h
  | cons x xs ih =>
    intro e h
    obtain ⟨k, v⟩ := x
    cases hv : toUSVString R v with
    | error t =>
      simp only [recordPairs, hv, Except.error.injEq] at h
      rw [← h]; exact toUSVString_error R v t hv
    | ok text =>
      cases hr : recordPairs R xs with
      | error t =>
        simp only [recordPairs, hv, hr, Except.error.injEq] at h
        rw [← h]; exact ih t hr
      | ok ps => simp [recordPairs, hv, hr] at h

theorem getProp_error (v : JSVal) (name : String) (e : JSVal) (h : getProp v name = .error e) :
    e.nullish = false := by
  cases v <;> simp [getProp] at h <;> rw [← h] <;> rfl

theorem objectKeysLength_error (v e : JSVal) (h : objectKeysLength v = .error e) :
    e.nullish = false := by
  cases v <;> simp [objectKeysLength] at h <;> rw [← h] <;> rfl

theorem urlSearchParams_error (R : Runtime) (v e : JSVal) (h : urlSearchParams R v = .error e) :
    e.nullish = false := by
  cases v with
  | arr items => exact tuplePairs_error R items e h
  | obj props => exact recordPairs_error R props e h
  | _ => simp [urlSearchParams] at h

theorem escapeStep_error (o : Options) (data : Option String) (e : JSVal)
    (h : escapeStep o data = .error e) : e.nullish = false := by
  unfold escapeStep at h
  split at h
  · split at h <;> simp at h
    rw [← h]; rfl
  · simp at h

theorem formStep_error (R : Runtime) (cfg : JSVal) (data : Option String) (e : JSVal)
    (h : formStep R cfg data = .error e) : e.nullish = false := by
  unfold formStep at h
  cases hh : getProp cfg "headers" with
  | error t =>
    simp [hh, bind, Except.bind] at h
    rw [← h]; exact getProp_error _ _ _ hh
  | ok headers =>
    cases hc : getProp headers HEADER_CONTENT_TYPE with
    | error t =>
      simp [hh, hc, bind, Except.bind] at h
      rw [← h]; exact getProp_error _ _ _ hc
    | ok ct =>
      simp only [hh, hc, bind, Except.bind] at h
      split at h
      · split at h
        · cases hk : objectKeysLength (convertToJSON R data) with
          | error t =>
            simp [hk] at h
            rw [← h]; exact objectKeysLength_error _ _ hk
          | ok n =>
            simp only [hk] at h
            split at h
            · cases hu : urlSearchParams R (convertToJSON R data) with
              | error t =>
                simp [hu] at h
                rw [← h]; exact urlSearchParams_error R _ _ hu
              | ok ps => simp [hu, pure, Except.pure] at h
            · simp [pure, Except.pure] at h
        · simp [pure, Except.pure] at h
      · simp [pure, Except.pure] at h

/-- Every run of `retry` over `execRequest`: it starts with a dispatch, every
dispatch carries the one descriptor, no `setFailed` is emitted, and a raised
error is never `undefined` or `null`. -/
theorem retry_sound (E : Engine) (o : Options) (d : JSVal) (client : Nat → Except JSVal JSVal)
    (w : Nat) :
    ∀ b i,
      (∃ rest, (retry (fun i => execRequest E o d (client i)) w b i).events =
        Event.dispatch d :: rest) ∧
      (∀ rd, Event.dispatch rd ∈ (retry (fun i => execRequest E o d (client i)) w b i).events →
        rd = d) ∧
      (retry (fun i => execRequest E o d (client i)) w b i).events.countP Event.isSetFailed = 0 ∧
      (∀ e, (retry (fun i => execRequest E o d (client i)) w b i).result = .error e →
        e.nullish = false) := by
  intro b
  induction b with
  | zero =>
    intro i
    rw [retry_zero]
    rcases execRequest_cases E o d (client i) with ⟨v, h⟩ | ⟨w2, v, h⟩ | ⟨e, hn, h⟩ <;>
      simp [h, Event.isSetFailed, List.countP_cons]
    exact hn
  | succ b ih =>
    intro i
    rcases execRequest_cases E o d (client i) with ⟨v, h⟩ | ⟨w2, v, h⟩ | ⟨e, hn, h⟩
    · rw [retry_succ_ok _ w b i _ v h]
      simp [Event.isSetFailed, List.countP_cons]
    · rw [retry_succ_ok _ w b i _ v h]
      simp [Event.isSetFailed, List.countP_cons]
    · rw [retry_succ_error _ w b i _ e h]
      obtain ⟨⟨rest, hrest⟩, hd, hc, he⟩ := ih (i + 1)
      refine ⟨⟨_, rfl⟩, ?_, ?_, he⟩
      · intro rd hrd
        simp only [List.cons_append, List.nil_append, List.mem_cons, Event.dispatch.injEq] at hrd
        rcases hrd with hrd | hrd | hrd
        · exact hrd
        · cases hrd
        · exact hd rd hrd
      · simp [List.countP_cons, Event.isSetFailed, hc]

/-- The `try` block emits no `setFailed`, raises only errors that are not
nullish, and returns only values other than `undefined`. -/
theorem tryBlock_sound (E : Engine) (client : Nat → Except JSVal JSVal) (method : String)
    (cfg : JSVal) (data : Option String) (o : Options) :
    (tryBlock E client method cfg data o).1.events.countP Event.isSetFailed = 0 ∧
    (∀ e, (tryBlock E client method cfg data o).1.result = .error e → e.nullish = false) ∧
    (∀ v, (tryBlock E client method cfg data o).1.result = .ok v → v ≠ undefined) := by
  cases h1 : escapeStep o data with
  | error e =>
    have hn := escapeStep_error o data e h1
    refine ⟨by simp [tryBlock, h1, Run.raise], ?_, by simp [tryBlock, h1, Run.raise]⟩
    intro e2 he2
    simp [tryBlock, h1, Run.raise] at he2
    rw [← he2]; exact hn
  | ok d1 =>
    cases h3 : formStep E cfg (getStep method d1) with
    | error e =>
      have hn := formStep_error E cfg _ e h3
      refine ⟨by simp [tryBlock, h1, h3, Run.raise], ?_, by simp [tryBlock, h1, h3, Run.raise]⟩
      intro e2 he2
      simp [tryBlock, h1, h3, Run.raise] at he2
      rw [← he2]; exact hn
    | ok d3 =>
      obtain ⟨_, tev, tres⟩ := tryBlock_dispatching E client method cfg data d1 d3 o h1 h3
      obtain ⟨_, _, hc, he⟩ := retry_sound E o (requestData method d3) client o.retryWait
        (retryBudget o) 0
      have hc2 : (retryRun E client method o d3).events.countP Event.isSetFailed = 0 := hc
      have he2 : ∀ e, (retryRun E client method o d3).result = .error e → e.nullish = false := he
      rw [tev, tres]
      refine ⟨by simp [List.countP_cons, Event.isSetFailed, hc2], ?_, ?_⟩
      · intro e hr
        cases hres : (retryRun E client method o d3).result with
        | ok v => rw [hres] at hr; simp at hr
        | error e3 =>
          rw [hres] at hr
          simp only [Except.error.injEq] at hr
          rw [← hr]; exact he2 e3 hres
      · intro v hr
        cases hres : (retryRun E client method o d3).result with
        | error e3 => rw [hres] at hr; simp at hr
        | ok x =>
          rw [hres] at hr
          simp only [Except.ok.injEq] at hr
          rw [← hr]
          cases hx : x.truthy with
          | false => simp
          | true =>
            simp only [Bool.not_true, Bool.false_eq_true, if_false]
            intro hu
            rw [hu] at hx
            simp [JSVal.truthy] at hx

/-- C2, as the code has it: for every engine, that is whenever
`JSON.stringify` returns a text on the values it is given, for every
behaviour of the HTTP client and every method, configuration, body and
options, the promise returned by `request` never rejects.  Either the `try`
block raised an error, and then `request` calls `setFailed` exactly once and
resolves with `undefined`; or the `try` block returned a value, and then
`request` resolves with that value, which is not `undefined`, and `setFailed`
is not called. -/
theorem request_never_rejects (E : Engine) (client : Nat → Except JSVal JSVal)
    (method : String) (cfg : JSVal) (data : Option String) (o : Options) :
    (∃ e, (tryBlock E client method cfg data o).1.result = .error e ∧
      (request E client method cfg data o).result = .ok undefined ∧
      (request E client method cfg data o).events.countP Event.isSetFailed = 1) ∨
    (∃ v, (tryBlock E client method cfg data o).1.result = .ok v ∧ v ≠ undefined ∧
      (request E client method cfg data o).result = .ok v ∧
      (request E client method cfg data o).events.countP Event.isSetFailed = 0) := by
  obtain ⟨hc, he, hv⟩ := tryBlock_sound E client method cfg data o
  cases hres : (tryBlock E client method cfg data o).1.result with
  | error e =>
    left
    have hn := he e hres
    obtain ⟨t1, _, _, _⟩ := terminalTrace_counts E e (tryBlock E client method cfg data o).2
    refine ⟨e, rfl, ?_, ?_⟩
    · rw [request_unfold, hres]
      simp [catchHandler_eq E e _ hn]
    · rw [request_unfold, hres]
      simp [catchHandler_eq E e _ hn, List.countP_cons, List.countP_append, hc, t1,
        Event.isSetFailed]
  | ok v =>
    right
    refine ⟨v, rfl, hv v hres, ?_, ?_⟩
    · rw [request_unfold, hres]
    · rw [request_unfold, hres]
      simp [List.countP_cons, hc, Event.isSetFailed]

/-- C2 as stated fails: `JSON.stringify` is called in the `catch` block
outside any `try`.  When every attempt is rejected with an error whose
response body is a BigInt, the `try` block raises that error, line 105 throws
while building the failure message, the promise rejects with the `TypeError`
and `setFailed` is not called. -/
theorem request_rejects_on_bigint :
    (tryBlock sampleRuntime (fun _ => .error Sample.bigintError) "POST" Sample.jsonConfig
      (some "x") (Sample.options false)).1.result = .error Sample.bigintError ∧
    (request sampleRuntime (fun _ => .error Sample.bigintError) "POST" Sample.jsonConfig
      (some "x") (Sample.options false)).result =
      .error (typeError "Do not know how to serialize a BigInt") ∧
    (request sampleRuntime (fun _ => .error Sample.bigintError) "POST" Sample.jsonConfig
      (some "x") (Sample.options false)).events.countP Event.isSetFailed = 0 := by
  refine ⟨rfl, rfl, rfl⟩

/-! ## `GET` requests -/

theorem formStep_none (E : Engine) (cfg : JSVal) (d3 : Option String)
    (h : formStep E cfg none = .ok d3) : d3 = none := by
  unfold formStep at h
  cases hh : getProp cfg "headers" with
  | error t => simp [hh, bind, Except.bind] at h
  | ok headers =>
    cases hc : getProp headers HEADER_CONTENT_TYPE with
    | error t => simp [hh, hc, bind, Except.bind] at h
    | ok ct =>
      simp only [hh, hc, bind, Except.bind, convertToJSON, JSVal.typeof] at h
      split at h <;> simp [pure, Except.pure] at h <;> exact h.symm

theorem not_dispatch_mem_terminalTrace (E : Engine) (e : JSVal) (data : Option String)
    (rd : JSVal) : Event.dispatch rd ∉ terminalTrace E e data := by
  cases h : isAxiosError e <;> simp [terminalTrace, h]

/-- Every descriptor dispatched by `request` is the one built from the body
left by pre-processing. -/
theorem request_dispatch_mem (E : Engine) (client : Nat → Except JSVal JSVal) (method : String)
    (cfg : JSVal) (data : Option String) (o : Options) (rd : JSVal)
    (h : Event.dispatch rd ∈ (request E client method cfg data o).events) :
    ∃ d1 d3, escapeStep o data = .ok d1 ∧ formStep E cfg (getStep method d1) = .ok d3 ∧
      rd = requestData method d3 := by
  cases h1 : escapeStep o data with
  | error e =>
    have hn := escapeStep_error o data e h1
    rw [request_unfold] at h
    simp [tryBlock, h1, Run.raise, catchHandler_eq E e _ hn,
      not_dispatch_mem_terminalTrace] at h
  | ok d1 =>
    cases h3 : formStep E cfg (getStep method d1) with
    | error e =>
      have hn := formStep_error E cfg _ e h3
      rw [request_unfold] at h
      simp [tryBlock, h1, h3, Run.raise, catchHandler_eq E e _ hn,
        not_dispatch_mem_terminalTrace] at h
    | ok d3 =>
      refine ⟨d1, d3, rfl, h3, ?_⟩
      obtain ⟨_, hd, _, he⟩ := retry_sound E o (requestData method d3) client o.retryWait
        (retryBudget o) 0
      have hd2 : ∀ rd, Event.dispatch rd ∈ (retryRun E client method o d3).events →
          rd = requestData method d3 := hd
      have he2 : ∀ e, (retryRun E client method o d3).result = .error e → e.nullish = false := he
      rw [request_dispatching E client method cfg data d1 d3 o h1 h3] at h
      cases hres : (retryRun E client method o d3).result with
      | ok v =>
        rw [hres] at h
        simp only [List.mem_cons, reduceCtorEq, false_or] at h
        exact hd2 rd h
      | error e =>
        rw [hres] at h
        simp only [List.mem_cons, reduceCtorEq, false_or, List.mem_append,
          catchHandler_eq E e d3 (he2 e hres)] at h
        rcases h with h | h
        · exact hd2 rd h
        · exact absurd h (not_dispatch_mem_terminalTrace E e d3 rd)

/-- C6: for every engine, client, configuration, input body and options
(whatever `escapeData` and the `Content-Type` header are), every descriptor
that `request` passes to `instance.request` for the method `GET` is the
descriptor of an absent body: its `data` field is `undefined`. -/
theorem request_get_has_no_body (E : Engine) (client : Nat → Except JSVal JSVal)
    (cfg : JSVal) (data : Option String) (o : Options) (rd : JSVal)
    (h : Event.dispatch rd ∈ (request E client METHOD_GET cfg data o).events) :
    rd = requestData METHOD_GET none ∧ prop rd "data" = undefined := by
  obtain ⟨d1, d3, _, h3, hrd⟩ := request_dispatch_mem E client METHOD_GET cfg data o rd h
  have hg : getStep METHOD_GET d1 = none := by simp [getStep]
  rw [hg] at h3
  have hd3 := formStep_none E cfg d3 h3
  subst hd3
  subst hrd
  exact ⟨rfl, rfl⟩

theorem request_get_has_no_body_witness :
    Event.dispatch (requestData METHOD_GET none) ∈
      (request sampleEngine (fun _ => .ok (obj [("status", num 200)])) METHOD_GET
        Sample.formConfig (some "\x7b\"a\":\"1\"\x7d") (Sample.options false)).events ∧
    prop (requestData METHOD_GET none) "data" = undefined := by
  have hmem : Event.dispatch (requestData METHOD_GET none) ∈
      (request sampleEngine (fun _ => .ok (obj [("status", num 200)])) METHOD_GET
        Sample.formConfig (some "\x7b\"a\":\"1\"\x7d") (Sample.options false)).events := by
    have hr := request_dispatching sampleEngine (fun _ => .ok (obj [("status", num 200)]))
      METHOD_GET Sample.formConfig (some "\x7b\"a\":\"1\"\x7d") (some "\x7b\"a\":\"1\"\x7d")
      none (Sample.options false) rfl rfl
    rw [hr]
    simp [retryRun, Sample.options, retryBudget, retry, Run.tryCatch, execRequest,
      Run.andThen, Run.emit, Run.compute]
  exact ⟨hmem, (request_get_has_no_body sampleEngine (fun _ => .ok (obj [("status", num 200)]))
    Sample.formConfig (some "\x7b\"a\":\"1\"\x7d") (Sample.options false)
    (requestData METHOD_GET none) hmem).2⟩

/-! ## Form encoding -/

theorem getProp_headers (cfg : JSVal) (v : JSVal)
    (hct : prop (prop cfg "headers") HEADER_CONTENT_TYPE = v) (hv : v ≠ undefined) :
    getProp cfg "headers" = .ok (prop cfg "headers") ∧
    getProp (prop cfg "headers") HEADER_CONTENT_TYPE = .ok v := by
  have hh : (prop cfg "headers").nullish = false := by
    cases hp : prop cfg "headers" <;> first | rfl | (rw [hp] at hct; exact absurd hct.symm hv)
  have hc : cfg.nullish = false := by
    cases cfg <;> first | rfl | (exact absurd hct.symm hv)
  exact ⟨getProp_ok _ _ hc, by rw [getProp_ok _ _ hh, hct]⟩

theorem convertToJSON_parsed (E : Engine) (body : String) (v : JSVal)
    (h : E.jsonParse body = some v) : convertToJSON E (some body) = v := by
  simp [convertToJSON, h]

theorem convertToJSON_failed (E : Engine) (body : String) (h : E.jsonParse body = none) :
    convertToJSON E (some body) = str body := by
  simp [convertToJSON, h]

/-- The form-encoding step in terms of the value handed over by
`convertToJSON`. -/
theorem formStep_eq (E : Engine) (cfg : JSVal) (data : Option String)
    (hct : prop (prop cfg "headers") HEADER_CONTENT_TYPE = str CONTENT_TYPE_URLENCODED) :
    formStep E cfg data =
      if (convertToJSON E data).typeof = "object" then
        match objectKeysLength (convertToJSON E data) with
        | .error e => .error e
        | .ok n =>
          if n ≠ 0 then
            match urlSearchParams E (convertToJSON E data) with
            | .error e => .error e
            | .ok params => .ok (some (formSerialize params))
          else .ok data
      else .ok data := by
  obtain ⟨g1, g2⟩ := getProp_headers cfg _ hct (by simp)
  simp only [formStep, g1, g2, bind, Except.bind, strictEqStr, pure, Except.pure,
    decide_True, if_true]
  split
  · cases objectKeysLength (convertToJSON E.toRuntime data) with
    | error e => rfl
    | ok n =>
      simp only []
      split
      · cases urlSearchParams E.toRuntime (convertToJSON E.toRuntime data) <;> rfl
      · rfl
  · rfl

/-- The pairs of a record whose values convert to the texts `vals`. -/
theorem recordPairs_ok (R : Runtime) (kvs : List (String × JSVal)) :
    ∀ vals : List String, kvs.map (fun p => toUSVString R p.2) = vals.map Except.ok →
      recordPairs R kvs = .ok (List.zipWith (fun p text => (p.1, text)) kvs vals) := by
  induction kvs with
  | nil =>
    intro vals h
    cases vals with
    | nil => rfl
    | cons _ _ => simp at h
  | cons x xs ih =>
    intro vals h
    obtain ⟨k, v⟩ := x
    cases vals with
    | nil => simp at h
    | cons t ts =>
      simp only [List.map_cons, List.cons.injEq] at h
      simp [recordPairs, h.1, ih ts h.2]

theorem formSerialize_zipWith (kvs : List (String × JSVal)) (vals : List String) :
    formSerialize (List.zipWith (fun p text => (p.1, text)) kvs vals) =
      "&".intercalate
        (List.zipWith (fun p text => formEncode p.1 ++ "=" ++ formEncode text) kvs vals) := by
  simp [formSerialize, List.map_zipWith]

/-- The form-encoding step on a body that parses to a non-empty object whose
values convert to the texts `vals`. -/
theorem formStep_object (E : Engine) (cfg : JSVal) (body : String)
    (kvs : List (String × JSVal)) (vals : List String)
    (hct : prop (prop cfg "headers") HEADER_CONTENT_TYPE = str CONTENT_TYPE_URLENCODED)
    (hparse : E.jsonParse body = some (obj kvs)) (hne : kvs ≠ [])
    (hvals : kvs.map (fun p => toUSVString E p.2) = vals.map Except.ok) :
    formStep E cfg (some body) =
      .ok (some ("&".intercalate
        (List.zipWith (fun p text => formEncode p.1 ++ "=" ++ formEncode text) kvs vals))) := by
  have hlen : kvs.length ≠ 0 := by
    cases kvs with
    | nil => exact absurd rfl hne
    | cons _ _ => simp
  rw [formStep_eq E cfg _ hct, convertToJSON_parsed E body _ hparse]
  simp [JSVal.typeof, objectKeysLength, hlen, urlSearchParams,
    recordPairs_ok E.toRuntime kvs vals hvals, formSerialize_zipWith]

/-- The form-encoding step leaves the body as it is when parsing fails, when
it yields a value whose `typeof` is not `object`, and when it yields the empty
object or the empty array. -/
theorem formStep_unchanged (E : Engine) (cfg : JSVal) (body : String)
    (hct : prop (prop cfg "headers") HEADER_CONTENT_TYPE = str CONTENT_TYPE_URLENCODED)
    (h : E.jsonParse body = none ∨
      ∃ v, E.jsonParse body = some v ∧ (v.typeof ≠ "object" ∨ v = obj [] ∨ v = arr [])) :
    formStep E cfg (some body) = .ok (some body) := by
  rw [formStep_eq E cfg _ hct]
  rcases h with h | ⟨v, h, hv | hv | hv⟩
  · rw [convertToJSON_failed E body h]
    simp [JSVal.typeof]
  · rw [convertToJSON_parsed E body v h]
    simp [hv]
  · rw [hv] at h
    rw [convertToJSON_parsed E body _ h]
    simp [JSVal.typeof, objectKeysLength]
  · rw [hv] at h
    rw [convertToJSON_parsed E body _ h]
    simp [JSVal.typeof, objectKeysLength]

/-- The form-encoding step leaves an absent body absent. -/
theorem formStep_absent (E : Engine) (cfg : JSVal)
    (hct : prop (prop cfg "headers") HEADER_CONTENT_TYPE = str CONTENT_TYPE_URLENCODED) :
    formStep E cfg none = .ok none := by
  rw [formStep_eq E cfg _ hct]
  simp [convertToJSON, JSVal.typeof]

/-- Once pre-processing has succeeded, `request` dispatches at least once. -/
theorem request_dispatches (E : Engine) (client : Nat → Except JSVal JSVal) (method : String)
    (cfg : JSVal) (data d1 d3 : Option String) (o : Options)
    (h1 : escapeStep o data = .ok d1) (h3 : formStep E cfg (getStep method d1) = .ok d3) :
    Event.dispatch (requestData method d3) ∈ (request E client method cfg data o).events := by
  obtain ⟨⟨rest, hrest⟩, _, _, _⟩ := retry_sound E o (requestData method d3) client o.retryWait
    (retryBudget o) 0
  have hrest2 : (retryRun E client method o d3).events =
      Event.dispatch (requestData method d3) :: rest := hrest
  rw [request_dispatching E client method cfg data d1 d3 o h1 h3]
  cases (retryRun E.toRuntime client method o d3).result <;> simp [hrest2]

/-- The run of `request` when the form-encoding step throws: the failure is
reported and nothing is dispatched. -/
theorem request_form_failed (E : Engine) (client : Nat → Except JSVal JSVal) (method : String)
    (cfg : JSVal) (data d1 : Option String) (e : JSVal) (o : Options)
    (h1 : escapeStep o data = .ok d1) (h3 : formStep E cfg (getStep method d1) = .error e) :
    request E client method cfg data o =
      ⟨Event.debug ("options: " ++ E.jsonStringify o.toJS) ::
        terminalTrace E e (getStep method d1), .ok undefined⟩ ∧
    (request E client method cfg data o).events.countP Event.isDispatch = 0 ∧
    (request E client method cfg data o).events.countP Event.isSetFailed = 1 := by
  have hn := formStep_error E.toRuntime cfg _ e h3
  have hreq : request E client method cfg data o =
      ⟨Event.debug ("options: " ++ E.jsonStringify o.toJS) ::
        terminalTrace E e (getStep method d1), .ok undefined⟩ := by
    rw [request_unfold]
    simp [tryBlock, h1, h3, Run.raise, catchHandler_eq E e _ hn]
  obtain ⟨t1, t2, _, _⟩ := terminalTrace_counts E e (getStep method d1)
  refine ⟨hreq, ?_, ?_⟩
  · rw [hreq]; simp [List.countP_cons, Event.isDispatch, t2]
  · rw [hreq]; simp [List.countP_cons, Event.isSetFailed, t1]

/-! ### The encoding of names and values -/

theorem formEncode_append (s t : String) :
    formEncode (s ++ t) = formEncode s ++ formEncode t := by
  simp [formEncode, String.ext_iff]

theorem formEncode_safe (c : Char) (h : formSafe c = true) :
    formEncode (String.singleton c) = String.singleton c := by
  simp [formEncode, formEncodeChar, h, String.singleton, String.ext_iff]

theorem formEncode_other (c : Char) (h : formSafe c = false) (hs : c ≠ ' ') :
    formEncode (String.singleton c) =
      String.mk ((String.utf8EncodeChar c).flatMap
        (fun b => ['%', hexDigit (b.toNat / 16), hexDigit (b.toNat % 16)])) := by
  simp [formEncode, formEncodeChar, h, hs, String.singleton, String.ext_iff, percentByte]
  rfl

/-- C7, as the code has it: for a method other than `GET`, a configuration
whose `Content-Type` header is `application/x-www-form-urlencoded`, and a body
(as it stands after the escape step) that `JSON.parse` turns into a non-empty
object with the properties `kvs` in key order, each value of which converts
to a string (a string is taken as it is), the form-encoding step replaces the
body by the form string of the object: the pairs `name=value` in key order,
joined by `&`, names and values encoded.  `request` dispatches, and every
descriptor it dispatches carries that string as its `data`.  The encoding
works character by character: ASCII letters, digits and `*-._` are kept, a
space becomes `+`, and every other character becomes, for each byte of its
UTF-8 encoding, `%` and the two upper-case hexadecimal digits of the byte. -/
theorem request_form_encodes (E : Engine) (client : Nat → Except JSVal JSVal) (method : String)
    (cfg : JSVal) (data : Option String) (body : String) (kvs : List (String × JSVal))
    (vals : List String) (o : Options)
    (hm : method ≠ METHOD_GET)
    (hct : prop (prop cfg "headers") HEADER_CONTENT_TYPE = str CONTENT_TYPE_URLENCODED)
    (hbody : escapeStep o data = .ok (some body))
    (hparse : E.jsonParse body = some (obj kvs)) (hne : kvs ≠ [])
    (hvals : kvs.map (fun p => toUSVString E p.2) = vals.map Except.ok) :
    formStep E cfg (getStep method (some body)) =
      .ok (some ("&".intercalate
        (List.zipWith (fun p text => formEncode p.1 ++ "=" ++ formEncode text) kvs vals))) ∧
    (∃ rd, Event.dispatch rd ∈ (request E client method cfg data o).events) ∧
    (∀ rd, Event.dispatch rd ∈ (request E client method cfg data o).events →
      prop rd "data" = str ("&".intercalate
        (List.zipWith (fun p text => formEncode p.1 ++ "=" ++ formEncode text) kvs vals))) ∧
    (∀ s : String, toUSVString E (str s) = .ok s) ∧
    (∀ s t : String, formEncode (s ++ t) = formEncode s ++ formEncode t) ∧
    (∀ c : Char, formSafe c = true → formEncode (String.singleton c) = String.singleton c) ∧
    formEncode " " = "+" ∧
    (∀ c : Char, formSafe c = false → c ≠ ' ' →
      formEncode (String.singleton c) =
        String.mk ((String.utf8EncodeChar c).flatMap
          (fun b => ['%', hexDigit (b.toNat / 16), hexDigit (b.toNat % 16)]))) ∧
    (∀ c : Char, formSafe c = true ↔
      ((97 ≤ c.toNat ∧ c.toNat ≤ 122) ∨ (65 ≤ c.toNat ∧ c.toNat ≤ 90) ∨
        (48 ≤ c.toNat ∧ c.toNat ≤ 57) ∨ c = '*' ∨ c = '-' ∨ c = '.' ∨ c = '_')) ∧
    (List.range 16).map hexDigit = "0123456789ABCDEF".data ∧
    formEncode "a b&c=é€😀\n~" = "a+b%26c%3D%C3%A9%E2%82%AC%F0%9F%98%80%0A%7E" := by
  have hg : getStep method (some body) = some body := by simp [getStep, hm]
  have hf := formStep_object E cfg body kvs vals hct hparse hne hvals
  rw [← hg] at hf
  refine ⟨hf, ⟨_, request_dispatches E client method cfg data _ _ o hbody hf⟩, ?_,
    fun _ => rfl, formEncode_append, formEncode_safe, by decide, formEncode_other, ?_,
    by decide, by decide⟩
  · intro rd hrd
    obtain ⟨d1, d3, e1, e3, erd⟩ := request_dispatch_mem E client method cfg data o rd hrd
    rw [hbody] at e1
    cases e1
    rw [hf] at e3
    cases e3
    rw [erd]
    rfl
  · intro c
    simp only [formSafe, Char.isAlphanum, Char.isAlpha, Char.isUpper, Char.isLower,
      Char.isDigit, Bool.or_eq_true, Bool.and_eq_true, decide_eq_true_eq, Char.toNat,
      UInt32.le_def, Fin.le_def]
    tauto

theorem request_form_encodes_witness :
    formStep sampleEngine Sample.formConfig
        (getStep "POST" (some "\x7b\"a\":\"1\",\"b\":\"2\"\x7d")) =
      .ok (some "a=1&b=2") ∧
    formStep sampleEngine Sample.formConfig
        (getStep "POST" (some "\x7b\"a b\":\"x&y\",\"n\":1.5\x7d")) =
      .ok (some "a+b=x%26y&n=1.5") := by
  have h := (request_form_encodes sampleEngine Sample.okClient "POST"
    Sample.formConfig (some "\x7b\"a\":\"1\",\"b\":\"2\"\x7d") "\x7b\"a\":\"1\",\"b\":\"2\"\x7d"
    [("a", str "1"), ("b", str "2")] ["1", "2"] (Sample.options false) (by decide) rfl rfl rfl
    (by simp) rfl).1
  have g := (request_form_encodes sampleEngine Sample.okClient "POST"
    Sample.formConfig (some "\x7b\"a b\":\"x&y\",\"n\":1.5\x7d")
    "\x7b\"a b\":\"x&y\",\"n\":1.5\x7d"
    [("a b", str "x&y"), ("n", num (mkRat 3 2))] ["x&y", "1.5"] (Sample.options false)
    (by decide) rfl rfl rfl (by simp) rfl).1
  exact ⟨by rw [h]; rfl, by rw [g]; rfl⟩

/-- C7 as stated fails: the body `{"a":{"toString":1}}` is the JSON text of a
non-empty object, but its value has no string conversion: the constructor of
`URLSearchParams` throws on line 48, `request` dispatches nothing and reports
a failure.  In a value that does convert, a space is written `+`, not as a
percent escape. -/
theorem request_form_value_without_text :
    sampleEngine.jsonParse "\x7b\"a\":\x7b\"toString\":1\x7d\x7d" =
      some (obj [("a", obj [("toString", num 1)])]) ∧
    formStep sampleEngine Sample.formConfig
        (getStep "POST" (some "\x7b\"a\":\x7b\"toString\":1\x7d\x7d")) =
      .error (typeError "Cannot convert object to primitive value") ∧
    (request sampleEngine Sample.okClient "POST" Sample.formConfig
      (some "\x7b\"a\":\x7b\"toString\":1\x7d\x7d")
      (Sample.options false)).events.countP Event.isDispatch = 0 ∧
    (request sampleEngine Sample.okClient "POST" Sample.formConfig
      (some "\x7b\"a\":\x7b\"toString\":1\x7d\x7d")
      (Sample.options false)).events.countP Event.isSetFailed = 1 ∧
    formStep sampleEngine Sample.formConfig (getStep "POST" (some "\x7b\"a\":\"x y\"\x7d")) =
      .ok (some "a=x+y") := by
  have hf : formStep sampleEngine Sample.formConfig
      (getStep "POST" (some "\x7b\"a\":\x7b\"toString\":1\x7d\x7d")) =
      .error (typeError "Cannot convert object to primitive value") := rfl
  obtain ⟨_, hd, hs⟩ := request_form_failed sampleEngine Sample.okClient "POST"
    Sample.formConfig (some "\x7b\"a\":\x7b\"toString\":1\x7d\x7d") _ _ (Sample.options false)
    rfl hf
  exact ⟨rfl, hf, hd, hs, rfl⟩

/-- C8, as the stand-in for `convertToJSON` and line 47 have it: with the
URL-encoded content type, when `JSON.parse` of the body (as it stands before
the form-encoding step) fails, or yields a value whose `typeof` is not
`object` (a string, a number, a boolean), or yields the empty object or the
empty array, the form-encoding step leaves the body as it is; `request`
dispatches, and every descriptor it dispatches carries that body. -/
theorem request_form_unchanged (E : Engine) (client : Nat → Except JSVal JSVal)
    (method : String) (cfg : JSVal) (data : Option String) (body : String) (o : Options)
    (hct : prop (prop cfg "headers") HEADER_CONTENT_TYPE = str CONTENT_TYPE_URLENCODED)
    (hbody : escapeStep o data = .ok (some body))
    (h : E.jsonParse body = none ∨
      ∃ v, E.jsonParse body = some v ∧ (v.typeof ≠ "object" ∨ v = obj [] ∨ v = arr [])) :
    formStep E cfg (getStep method (some body)) = .ok (getStep method (some body)) ∧
    (∃ rd, Event.dispatch rd ∈ (request E client method cfg data o).events) ∧
    (∀ rd, Event.dispatch rd ∈ (request E client method cfg data o).events →
      prop rd "data" = dataJS (getStep method (some body))) := by
  have hf : formStep E cfg (getStep method (some body)) = .ok (getStep method (some body)) := by
    by_cases hm : method = METHOD_GET
    · simp only [getStep, hm, if_true]
      exact formStep_absent E cfg hct
    · simp only [getStep, hm, if_false]
      exact formStep_unchanged E cfg body hct h
  refine ⟨hf, ⟨_, request_dispatches E client method cfg data _ _ o hbody hf⟩, ?_⟩
  intro rd hrd
  obtain ⟨d1, d3, e1, e3, erd⟩ := request_dispatch_mem E client method cfg data o rd hrd
  rw [hbody] at e1
  cases e1
  rw [hf] at e3
  cases e3
  rw [erd]
  rfl

theorem request_form_unchanged_witness :
    formStep sampleEngine Sample.formConfig (getStep "POST" (some "not json")) =
      .ok (getStep "POST" (some "not json")) ∧
    formStep sampleEngine Sample.formConfig (getStep "POST" (some "\x7b\x7d")) =
      .ok (getStep "POST" (some "\x7b\x7d")) :=
  ⟨(request_form_unchanged sampleEngine Sample.okClient "POST" Sample.formConfig
      (some "not json") "not json" (Sample.options false) rfl rfl (Or.inl rfl)).1,
   (request_form_unchanged sampleEngine Sample.okClient "POST" Sample.formConfig
      (some "\x7b\x7d") "\x7b\x7d" (Sample.options false) rfl rfl
      (Or.inr ⟨obj [], rfl, Or.inr (Or.inl rfl)⟩)).1⟩

/-- C8 as stated fails: with the URL-encoded content type, a body whose JSON
value is a non-empty array passes the test of line 47, because `typeof` of an
array is `object` and `Object.keys` of it is not empty.  For the body `[1,2]`
the constructor of `URLSearchParams` throws: `request` dispatches nothing and
reports a failure.  For the body `[["a","1"]]` the body becomes `a=1`.  For
the body `null`, which the stand-in for `convertToJSON` hands over as parsed,
`Object.keys` throws on line 47. -/
theorem request_array_body :
    sampleEngine.jsonParse "[1,2]" = some (arr [num 1, num 2]) ∧
    (request sampleEngine Sample.okClient "POST" Sample.formConfig (some "[1,2]")
      (Sample.options false)).events.countP Event.isDispatch = 0 ∧
    (request sampleEngine Sample.okClient "POST" Sample.formConfig (some "[1,2]")
      (Sample.options false)).events.countP Event.isSetFailed = 1 ∧
    (request sampleEngine Sample.okClient "POST" Sample.formConfig (some "[1,2]")
      (Sample.options false)).result = .ok undefined ∧
    formStep sampleEngine Sample.formConfig (some "[[\"a\",\"1\"]]") = .ok (some "a=1") ∧
    formStep sampleEngine Sample.formConfig (some "null") =
      .error (typeError "Cannot convert undefined or null to object") := by
  have hf : formStep sampleEngine Sample.formConfig (getStep "POST" (some "[1,2]")) =
      .error (typeError "Each query pair must be an iterable [name, value] tuple") := rfl
  obtain ⟨hr, hd, hs⟩ := request_form_failed sampleEngine Sample.okClient "POST"
    Sample.formConfig (some "[1,2]") _ _ (Sample.options false) rfl hf
  exact ⟨rfl, hd, hs, by rw [hr], rfl, rfl⟩

/-! ## The terminal report -/

/-- C9, as the code has it: for every error that reaches the terminal handler
(an error that is not nullish), exactly one `setFailed` is emitted and its
message is the JSON text of a record chosen in three ways: with a response,
the record `code`, `message` of the response status and body; with a request
and no response, the record `error`, `message`, `errorFull` holding the text
"no response received 2", the message of the error and the error itself;
otherwise the record `message`, `data` holding the message of the error and
the body variable. -/
theorem terminal_failure_message (E : Engine) (error : JSVal) (data : Option String)
    (hn : error.nullish = false) :
    ((prop error "response").truthy = true →
      (catchHandler E error data).events.filter Event.isSetFailed =
        [Event.setFailed (E.jsonStringify
          (obj [("code", prop (prop error "response") "status"),
                ("message", prop (prop error "response") "data")]))]) ∧
    ((prop error "response").truthy = false → (prop error "request").truthy = true →
      (catchHandler E error data).events.filter Event.isSetFailed =
        [Event.setFailed (E.jsonStringify
          (obj [("error", str "no response received 2"), ("message", prop error "message"),
                ("errorFull", error)]))]) ∧
    ((prop error "response").truthy = false → (prop error "request").truthy = false →
      (catchHandler E error data).events.filter Event.isSetFailed =
        [Event.setFailed (E.jsonStringify
          (obj [("message", prop error "message"), ("data", dataJS data)]))]) := by
  have hflt : (catchHandler E error data).events.filter Event.isSetFailed =
      [Event.setFailed (E.jsonStringify (failureRecord error data))] := by
    rw [catchHandler_eq E error data hn]
    cases h : isAxiosError error <;>
      simp [terminalTrace, h, List.filter_cons, Event.isSetFailed]
  refine ⟨?_, ?_, ?_⟩
  · intro hr
    rw [hflt]; simp [failureRecord, hr]
  · intro hr hq
    rw [hflt]; simp [failureRecord, hr, hq]
  · intro hr hq
    rw [hflt]; simp [failureRecord, hr, hq]

theorem terminal_failure_message_witness :
    (catchHandler sampleEngine Sample.timeoutError none).events.filter Event.isSetFailed =
      [Event.setFailed (sampleEngine.jsonStringify
        (obj [("error", str "no response received 2"),
              ("message", prop Sample.timeoutError "message"),
              ("errorFull", Sample.timeoutError)]))] :=
  (terminal_failure_message sampleEngine Sample.timeoutError none rfl).2.1 rfl rfl

/-- C9 as stated fails: for an error with a request and no response, the
message passed to `setFailed` is not the JSON text of the record whose text is
"no response received". -/
theorem terminal_failure_message_text :
    (catchHandler sampleEngine Sample.timeoutError none).events.filter Event.isSetFailed ≠
      [Event.setFailed (sampleEngine.jsonStringify
        (obj [("error", str "no response received"),
              ("message", prop Sample.timeoutError "message"),
              ("errorFull", Sample.timeoutError)]))] := by
  have hcode : (catchHandler sampleEngine Sample.timeoutError none).events.filter
      Event.isSetFailed =
      [Event.setFailed (sampleEngine.jsonStringify
        (obj [("error", str "no response received 2"),
              ("message", prop Sample.timeoutError "message"),
              ("errorFull", Sample.timeoutError)]))] := by
    rw [catchHandler_eq sampleEngine Sample.timeoutError none rfl]
    rfl
  rw [hcode]
  intro h
  have h2 : sampleEngine.jsonStringify
      (obj [("error", str "no response received 2"),
            ("message", prop Sample.timeoutError "message"),
            ("errorFull", Sample.timeoutError)]) =
    sampleEngine.jsonStringify
      (obj [("error", str "no response received"),
            ("message", prop Sample.timeoutError "message"),
            ("errorFull", Sample.timeoutError)]) := by
    injection h with h3 _
    injection h3
  exact absurd h2 (by decide)

theorem isAxiosError_iff (error : JSVal) :
    isAxiosError error = true ↔
      (error.typeof = "object" ∧ prop error "isAxiosError" = JSVal.bool true) := by
  unfold isAxiosError
  constructor
  · intro h
    simp only [Bool.and_eq_true, decide_eq_true_eq] at h
    refine ⟨h.1, ?_⟩
    have h2 := h.2
    split at h2
    · assumption
    · simp at h2
  · intro h
    simp [h.1, h.2]

/-- C10: for every error that reaches the terminal handler (an error that is
not nullish): when `typeof error` is `object` and `error.isAxiosError` is
`true`, the handler emits `setOutput('requestError', ...)` and then
`setFailed`, in this order and nothing else, and the value of the output is
the JSON text of the record `name`, `message`, `code`, `status`, where
`status` is the status of the response of the error when the error has a
response and that status is truthy, and `null` otherwise; in every other case
the handler emits no `setOutput`. -/
theorem request_error_output (E : Engine) (error : JSVal) (data : Option String)
    (hn : error.nullish = false) :
    ((error.typeof = "object" ∧ prop error "isAxiosError" = JSVal.bool true) →
      ∃ msg, (catchHandler E error data).events =
        [Event.setOutput "requestError" (E.jsonStringify
          (obj [("name", prop error "name"), ("message", prop error "message"),
                ("code", prop error "code"),
                ("status",
                  if (prop error "response").truthy = true ∧
                      (prop (prop error "response") "status").truthy = true then
                    prop (prop error "response") "status"
                  else null)])),
         Event.setFailed msg]) ∧
    (¬ (error.typeof = "object" ∧ prop error "isAxiosError" = JSVal.bool true) →
      (catchHandler E error data).events.countP Event.isSetOutput = 0) := by
  rw [catchHandler_eq E error data hn]
  constructor
  · intro h
    have hax := (isAxiosError_iff error).2 h
    refine ⟨E.jsonStringify (failureRecord error data), ?_⟩
    simp only [terminalTrace, hax, if_true, requestErrorRecord, statusOrNull, List.cons_append,
      List.nil_append, Bool.and_eq_true]
  · intro h
    have hax : isAxiosError error = false := by
      cases hb : isAxiosError error with
      | false => rfl
      | true => exact absurd ((isAxiosError_iff error).1 hb) h
    simp [terminalTrace, hax, List.countP_cons, Event.isSetOutput]

theorem request_error_output_witness :
    ∃ msg, (catchHandler sampleEngine (Sample.statusError 500) none).events =
      [Event.setOutput "requestError"
        "\x7b\"name\":\"AxiosError\",\"message\":\"Request failed\",\"code\":\"ERR_BAD_RESPONSE\",\"status\":500\x7d",
       Event.setFailed msg] := by
  obtain ⟨msg, h⟩ := (request_error_output sampleEngine (Sample.statusError 500) none rfl).1
    ⟨rfl, rfl⟩
  exact ⟨msg, by rw [h]; rfl⟩

/-! ## The escape transform -/

/-- C5: the escape step rewrites newlines only inside double-quoted
substrings.  With `escapeData` set the body `s` becomes `escapeData s`.  A
body splits at its first two quotes into the text before them, the quoted text
and the rest: the text before is kept, inside the quotes every newline
sequence is replaced, and the rest is treated in the same way; a body with a
single quote left, or with none, is kept whole, newlines included.  Inside the
quotes, text without a line feed or carriage return is kept, a line feed or
carriage return together with the whitespace that follows it becomes a
backslash and the letter n, and no line feed or carriage return remains.  The
body `{"a":"x<LF>y"}<LF>` becomes `{"a":"x\ny"}<LF>`. -/
theorem escapeData_rewrites_quoted_newlines (pre mid rest : List Char)
    (hpre : '"' ∉ pre) (hmid : '"' ∉ mid) :
    (∀ (o : Options) (s : String), o.escapeData = true →
      escapeStep o (some s) = .ok (some (escapeData s))) ∧
    escapeData (String.mk (pre ++ '"' :: mid ++ '"' :: rest)) =
      String.mk (pre ++ '"' :: escapeNewlines mid ++ '"' :: (escapeData (String.mk rest)).data) ∧
    escapeData (String.mk (pre ++ '"' :: mid)) = String.mk (pre ++ '"' :: mid) ∧
    escapeData (String.mk pre) = String.mk pre ∧
    (∀ c ∈ escapeNewlines mid, isNewline c = false) ∧
    (∀ a : List Char, (∀ c ∈ a, isNewline c = false) → escapeNewlines a = a) ∧
    (∀ (a : List Char) (n : Char) (ws b : List Char), (∀ c ∈ a, isNewline c = false) →
      isNewline n = true → (∀ c ∈ ws, isSpace c = true) → (∀ c ∈ b.head?, isSpace c = false) →
      escapeNewlines (a ++ n :: ws ++ b) = a ++ '\\' :: 'n' :: escapeNewlines b) ∧
    escapeData "\x7b\"a\":\"x\ny\"\x7d\n" = "\x7b\"a\":\"x\\ny\"\x7d\n" := by
  refine ⟨?_, ?_, ?_, ?_, ?_, ?_, ?_, by decide⟩
  · intro o s ho
    simp [escapeStep, ho]
  · simp only [escapeData]
    rw [escapeChars_quoted pre mid rest hpre hmid]
  · simp only [escapeData]
    rw [escapeChars_unterminated pre mid hpre hmid]
  · simp only [escapeData]
    rw [escapeChars_unquoted pre hpre]
  · exact replaceNewline_no_newline mid 0
  · intro a ha
    have := escapeNewlines_copy a [] ha
    simpa [escapeNewlines, replaceGlobal] using this
  · intro a n ws b ha hn hws hb
    have e1 : a ++ n :: ws ++ b = a ++ (n :: (ws ++ b)) := by simp
    rw [e1, escapeNewlines_copy a _ ha, escapeNewlines_newline n ws b hn hws hb]

theorem escapeData_rewrites_quoted_newlines_witness :
    escapeData "\x7b\"a\":\"x\ny\"\x7d\n" =
      String.mk ("\x7b".data ++ '"' :: escapeNewlines "a".data ++
        '"' :: (escapeData ":\"x\ny\"\x7d\n").data) :=
  (escapeData_rewrites_quoted_newlines "\x7b".data "a".data ":\"x\ny\"\x7d\n".data
    (by decide) (by decide)).2.1

end HttpClient
